import Mathlib

/-!
Verification of the dunning (windykacja) engine of this repository.

The Python source (src/app.py, src/models.py) is shallowly embedded below:
  * dates are integers counting days, `today` is an explicit parameter
    (the source reads `date.today()` / `datetime.now()` from the clock);
  * the SQLAlchemy tables become lists of structures inside `DBState`;
  * the SMTP/SMS transports are external I/O and are modelled by passing the
    transport outcome `(success, error)` as an argument;
  * Python string truthiness (`or`, `if not x`) is modelled by `pyOr`,
    `pyTruthyStr` and `pyStrOpt`;
  * monetary amounts (Python floats) are modelled as integers; the display
    formatting helpers keep the source's structure but print plain integers
    instead of grouped-thousands two-decimal floats (no claim depends on the
    rendering of amounts).
Definition names follow the source names wherever Lean allows it.
-/

/-- Python `x or default` for an optional string column: `None` and the empty
string are falsy and give the default. -/
def pyOr (v : Option String) (default : String) : String :=
  match v with
  | none => default
  | some s => if s = ("") then default else s

/-- Python truthiness of an optional string: `None` and `''` are falsy. -/
def pyTruthyStr : Option String → Bool
  | none => false
  | some s => decide (s ≠ (""))

/-- Keep an optional string only when it is Python-truthy. -/
def pyStrOpt : Option String → Option String
  | none => none
  | some s => if s = ("") then none else some s

/-- Contractor row (`Kontrahent` in src/models.py).  The columns the engine
never reads (adres, status_vat, data_sprawdzenia) are omitted. -/
structure Kontrahent where
  id : Nat
  nip : String
  nazwa : Option String
  sciezka_windykacji : Option String
  metoda_kontaktu : Option String
  email : Option String
  telefon : Option String
deriving DecidableEq

/-- Invoice row (`Invoice` in src/models.py); dates are day numbers, the
amount is an integer.  `import_id` is omitted (never read by the engine). -/
structure Invoice where
  id : Nat
  kontrahent : String
  nr_faktury : String
  kwota : Int
  waluta : String
  data_wystawienia : Int
  termin_platnosci : Int
  data_platnosci : Option Int
  dni_roznica : Int
  status : String
  kontrahent_id : Option Nat
deriving DecidableEq

/-- Communication template row (`SzablonKomunikacji` in src/models.py). -/
structure SzablonKomunikacji where
  etap : Nat
  wariant : String
  kanal : String
  tytul : Option String
  tresc : Option String
deriving DecidableEq

/-- Correspondence log row (`Korespondencja` in src/models.py).  The send
timestamp column is omitted; rendered subject/body are lists of characters
(the renderer works on characters). -/
structure Korespondencja where
  kontrahent_id : Nat
  invoice_id : Option Nat
  etap : Nat
  wariant : String
  kanal : String
  tytul : List Char
  tresc : List Char
  status : String
  blad_opis : Option String
  odbiorca : String
deriving DecidableEq

/-- The database state read and written by the engine.  `config` models the
flat key-value `Config` table. -/
structure DBState where
  kontrahenci : List Kontrahent
  invoices : List Invoice
  szablony : List SzablonKomunikacji
  korespondencja : List Korespondencja
  config : List (String × String)
deriving DecidableEq

/-- `Invoice.oblicz_status` (src/models.py lines 99-109): recompute
`dni_roznica` and `status` from the paid date / due date and `today`.
A Python `date` object is never falsy, so `if self.data_platnosci`
is `isSome`. -/
def obliczStatus (today : Int) (inv : Invoice) : Invoice :=
  match inv.data_platnosci with
  | some dp =>
    { inv with dni_roznica := dp - inv.termin_platnosci, status := ("oplacona") }
  | none =>
    let d := today - inv.termin_platnosci
    { inv with dni_roznica := d,
               status := if d ≤ 0 then ("w_terminie") else ("przeterminowana") }

/-- `Invoice.kategoria_zaleglosci` (src/models.py lines 111-124): the aging
bucket derived from `status` and `dni_roznica`. -/
def kategoria_zaleglosci (inv : Invoice) : String :=
  if inv.status = ("oplacona") then ("oplacona")
  else if inv.dni_roznica ≤ 0 then ("w_terminie")
  else if inv.dni_roznica ≤ 30 then ("1-30")
  else if inv.dni_roznica ≤ 60 then ("31-60")
  else if inv.dni_roznica ≤ 90 then ("61-90")
  else ("90+")

/-- `Config.get` (src/models.py lines 28-31): value of a key, falling back to
the default when the row is missing or its value is falsy. -/
def cfgGet (s : DBState) (klucz : String) (default : String) : String :=
  match s.config.find? (fun p => decide (p.1 = klucz)) with
  | some p => if p.2 = ("") then default else p.2
  | none => default

/-- The invoices linked to a contractor id (`kontrahent.invoices`,
the SQLAlchemy relationship keyed by `kontrahent_id`). -/
def invoicesOf (s : DBState) (kid : Nat) : List Invoice :=
  s.invoices.filter (fun i => decide (i.kontrahent_id = some kid))

/-- `Kontrahent.query.get(id)`. -/
def findKontrahent (s : DBState) (kid : Nat) : Option Kontrahent :=
  s.kontrahenci.find? (fun k => decide (k.id = kid))

/-- `inv.contractor`: the contractor linked by `kontrahent_id`, if any. -/
def contractorOf (s : DBState) (inv : Invoice) : Option Kontrahent :=
  match inv.kontrahent_id with
  | some kid => findKontrahent s kid
  | none => none

/-- Template lookup by the (etap, wariant, kanal) triple
(`SzablonKomunikacji.query.filter_by(...).first()`). -/
def findSzablon (s : DBState) (etap : Nat) (wariant kanal : String) :
    Option SzablonKomunikacji :=
  s.szablony.find? (fun t =>
    decide (t.etap = etap) && decide (t.wariant = wariant) && decide (t.kanal = kanal))

/-- Write back a mutated invoice row (the ORM mutation performed by
`inv.oblicz_status()` inside the sending loops). -/
def setInvoice (s : DBState) (inv : Invoice) : DBState :=
  { s with invoices := s.invoices.map (fun i => if i.id = inv.id then inv else i) }

/-- Fold step selecting the first invoice with minimal due date (what
`.order_by(termin_platnosci.asc()).first()` returns on a stably sorted
list). -/
def pickMin (acc : Option Invoice) (i : Invoice) : Option Invoice :=
  match acc with
  | none => some i
  | some j => if i.termin_platnosci < j.termin_platnosci then some i else some j

/-- The first invoice of `l` with status `przeterminowana` when `l` is sorted
by due date ascending: the leftmost invoice with minimal `termin_platnosci`
among the overdue ones.  This embeds the query
`invoices.filter(status == 'przeterminowana').order_by(termin_platnosci.asc()).first()`
used both by `run_stage_sending` and by `determine_contractor_stage`. -/
def oldestOverdue (l : List Invoice) : Option Invoice :=
  (l.filter (fun i => decide (i.status = ("przeterminowana")))).foldl pickMin none

/-- The first unpaid invoice sorted by due date ascending
(`invoices.filter(status != 'oplacona').order_by(termin_platnosci.asc()).first()`). -/
def earliestUnpaid (l : List Invoice) : Option Invoice :=
  (l.filter (fun i => decide (i.status ≠ ("oplacona")))).foldl pickMin none

/-- `determine_contractor_stage` (src/app.py lines 736-761): stage from the
oldest overdue invoice's stored `dni_roznica`; with no overdue invoice,
stage 1 with the earliest unpaid invoice. -/
def determineContractorStage (s : DBState) (k : Kontrahent) : Nat × Option Invoice :=
  match oldestOverdue (invoicesOf s k.id) with
  | none => (1, earliestUnpaid (invoicesOf s k.id))
  | some oldest =>
    if oldest.dni_roznica ≤ 7 then (2, some oldest)
    else if oldest.dni_roznica ≤ 14 then (3, some oldest)
    else if oldest.dni_roznica ≤ 30 then (4, some oldest)
    else (5, some oldest)

/-- `_already_sent_for_invoice_stage` (src/app.py lines 533-541): true iff a
correspondence row with this invoice id, this stage and status `wyslana`
exists.  Python `if not invoice_id` is true for `None` and for the id `0`. -/
def alreadySentForInvoiceStage (log : List Korespondencja)
    (invoice_id : Option Nat) (etap : Nat) : Bool :=
  match invoice_id with
  | none => false
  | some iid =>
    if iid = 0 then false
    else log.any (fun r =>
      decide (r.invoice_id = some iid) && decide (r.etap = etap) &&
        decide (r.status = ("wyslana")))

/-- The opening brace character, written by code point to keep brace
characters out of literals. -/
def lb : Char := Char.ofNat 123

/-- The closing brace character. -/
def rb : Char := Char.ofNat 125

/-- Boolean prefix test on character lists (the substring matching inside
Python `str.replace`). -/
def isPre : List Char → List Char → Bool
  | [], _ => true
  | _ :: _, [] => false
  | a :: as, b :: bs => decide (a = b) && isPre as bs

/-- Python `str.replace(pat, repl)`: scan left to right, replace each
non-overlapping occurrence of `pat`, and continue after the replacement
(the replacement is not rescanned).  All call sites in the source use the
nonempty pattern `'{' + key + '}'`; for an empty pattern this model keeps
the string unchanged instead of Python's insert-between-characters. -/
def replaceAll (pat repl : List Char) : List Char → List Char
  | [] => []
  | c :: rest =>
    if isPre pat (c :: rest) then repl ++ replaceAll pat repl (rest.drop (pat.length - 1))
    else c :: replaceAll pat repl rest
termination_by s => s.length
decreasing_by
  · simp only [List.length_drop, List.length_cons]
    omega
  · simp only [List.length_cons]
    omega

/-- The literal token `'{' + key + '}'` substituted by the renderer. -/
def tokL (key : List Char) : List Char := lb :: (key ++ [rb])

/-- `render_template_content` (src/app.py lines 855-862): replace every
`{key}` token by its context value, iterating over the context pairs in
order; a falsy text (None or empty) renders to the empty string. -/
def render_template_content (text : Option String)
    (context : List (List Char × List Char)) : List Char :=
  match text with
  | none => []
  | some t =>
    if t = ("") then []
    else context.foldl (fun acc kv => replaceAll (tokL kv.1) kv.2 acc) t.data

/-- Insertion into a currency-to-sum table (the dict accumulation in
`calculate_suma_zobowiazan` / `calculate_suma_przeterminowanych`). -/
def addSum : List (String × Int) → String → Int → List (String × Int)
  | [], cur, v => [(cur, v)]
  | (c0, v0) :: rest, cur, v =>
    if c0 = cur then (c0, v0 + v) :: rest else (c0, v0) :: addSum rest cur v

/-- `calculate_suma_zobowiazan` (src/app.py lines 764-771): sum of unpaid
invoices grouped by currency. -/
def calculate_suma_zobowiazan (s : DBState) (kid : Nat) : List (String × Int) :=
  ((invoicesOf s kid).filter (fun i => decide (i.status ≠ ("oplacona")))).foldl
    (fun acc i => addSum acc (if i.waluta = ("") then ("PLN") else i.waluta) i.kwota) []

/-- `calculate_suma_przeterminowanych` (src/app.py lines 774-781): sum of
overdue invoices grouped by currency. -/
def calculate_suma_przeterminowanych (s : DBState) (kid : Nat) : List (String × Int) :=
  ((invoicesOf s kid).filter (fun i => decide (i.status = ("przeterminowana")))).foldl
    (fun acc i => addSum acc (if i.waluta = ("") then ("PLN") else i.waluta) i.kwota) []

/-- Insertion sort step on currency keys (ascending). -/
def insertByCur (p : String × Int) : List (String × Int) → List (String × Int)
  | [] => [p]
  | q :: rest => if p.1 ≤ q.1 then p :: q :: rest else q :: insertByCur p rest

/-- Sort a currency table by currency code ascending (`sorted(sums.keys())`). -/
def sortByCur : List (String × Int) → List (String × Int)
  | [] => []
  | p :: rest => insertByCur p (sortByCur rest)

/-- Amount display.  The source formats a float with grouped thousands and
two decimals; amounts are integers here, so this prints the integer. -/
def formatKwotaStr (n : Int) : String := toString n

/-- `_format_currency_sums` (src/app.py lines 784-791). -/
def format_currency_sums (sums : List (String × Int)) : String :=
  match sums with
  | [] => ("0.00 PLN")
  | _ => String.intercalate (", ")
      ((sortByCur sums).map (fun p => formatKwotaStr p.2 ++ (" ") ++ p.1))

/-- Insertion sort step on invoice due dates (ascending). -/
def insertByTermin (i : Invoice) : List Invoice → List Invoice
  | [] => [i]
  | j :: rest =>
    if i.termin_platnosci ≤ j.termin_platnosci then i :: j :: rest
    else j :: insertByTermin i rest

/-- Sort invoices by due date ascending (`order_by(termin_platnosci.asc())`). -/
def sortByTermin : List Invoice → List Invoice
  | [] => []
  | i :: rest => insertByTermin i (sortByTermin rest)

/-- One row of the obligations table.  The source emits the same cells with
inline styling; the styling attributes are abbreviated here. -/
def invoiceRowHtml (i : Invoice) : String :=
  ("<tr><td>") ++ i.nr_faktury ++ ("</td><td>") ++ formatKwotaStr i.kwota ++
  ("</td><td>") ++ i.waluta ++ ("</td><td>") ++ toString i.termin_platnosci ++
  ("</td><td>") ++ toString i.dni_roznica ++ ("</td><td>") ++
  (if i.status = ("przeterminowana") then ("Przeterminowana") else ("W terminie")) ++
  ("</td></tr>")

/-- `build_tabela_zobowiazan_html` (src/app.py lines 794-820): HTML table of
the contractor's unpaid invoices (falling back to the overdue ones), followed
by the two aggregate sums; empty string when there are no rows. -/
def build_tabela_zobowiazan_html (s : DBState) (kid : Nat) : String :=
  let overdue := sortByTermin
    ((invoicesOf s kid).filter (fun i => decide (i.status = ("przeterminowana"))))
  let all_unpaid := sortByTermin
    ((invoicesOf s kid).filter (fun i => decide (i.status ≠ ("oplacona"))))
  let rows := if all_unpaid = [] then overdue else all_unpaid
  if rows = [] then ("")
  else
    ("<table><tr><th>Nr faktury</th><th>Kwota</th><th>Waluta</th><th>Termin</th><th>Dni po terminie</th><th>Status</th></tr>") ++
    String.join (rows.map invoiceRowHtml) ++ ("</table>") ++
    ("<p><strong>Suma zobowiazan:</strong> ") ++
    format_currency_sums (calculate_suma_zobowiazan s kid) ++
    ("<br><strong>W tym przeterminowane:</strong> ") ++
    format_currency_sums (calculate_suma_przeterminowanych s kid) ++ ("</p>")

/-- `build_message_context` (src/app.py lines 823-852): the placeholder
context, as an ordered key-value list (Python dicts keep insertion order and
`ctx.update` appends the invoice keys). -/
def build_message_context (s : DBState) (k : Kontrahent)
    (invoice : Option Invoice) (stage : Nat) : List (List Char × List Char) :=
  [(("kontrahent_nazwa").data, (pyOr k.nazwa k.nip).data),
   (("kontrahent_nip").data, k.nip.data),
   (("firma_nazwa").data, (cfgGet s ("firma_nazwa") ("")).data),
   (("firma_adres").data, (cfgGet s ("firma_adres") ("")).data),
   (("firma_nip").data, (cfgGet s ("firma_nip") ("")).data),
   (("firma_osoba").data, (cfgGet s ("firma_osoba") ("")).data),
   (("tabela_zobowiazan").data,
     (if 2 ≤ stage then (build_tabela_zobowiazan_html s k.id).data else [])),
   (("suma_zobowiazan").data,
     (format_currency_sums (calculate_suma_zobowiazan s k.id)).data),
   (("suma_przeterminowanych").data,
     (format_currency_sums (calculate_suma_przeterminowanych s k.id)).data)] ++
  (match invoice with
   | some inv =>
     [(("nr_faktury").data, inv.nr_faktury.data),
      (("kwota").data, (formatKwotaStr inv.kwota).data),
      (("waluta").data, (if inv.waluta = ("") then ("PLN") else inv.waluta).data),
      (("data_wystawienia").data, (toString inv.data_wystawienia).data),
      (("termin_platnosci").data, (toString inv.termin_platnosci).data)]
   | none =>
     [(("nr_faktury").data, ("—").data),
      (("kwota").data, ("0.00").data),
      (("waluta").data, ("PLN").data),
      (("data_wystawienia").data, ("—").data),
      (("termin_platnosci").data, ("—").data)])

/-- `send_correspondence` (src/app.py lines 865-932): find contractor →
BRAK opt-out → resolve invoice (override or re-derivation) → find template →
render → determine recipient → transport → append one log row.  The transport
outcome `(success, error)` is an input (the SMTP/SMS call is external I/O);
the failure messages keep the source's wording with the interpolated values
appended. -/
def sendCorrespondence (s : DBState) (etap : Nat) (kontrahent_id : Nat)
    (invoice_override : Option Invoice) (tr : Bool × Option String) :
    Bool × String × DBState :=
  match findKontrahent s kontrahent_id with
  | none => (false, ("Kontrahent nie znaleziony."), s)
  | some k =>
    let wariant := pyOr k.sciezka_windykacji ("STANDARDOWA")
    if wariant = ("BRAK") then
      (false, ("Kontrahent ma ustawioną ścieżkę windykacji BRAK — nie wysyłamy."), s)
    else
      let kanal := pyOr k.metoda_kontaktu ("email")
      let invoice : Option Invoice :=
        match invoice_override with
        | some inv => some inv
        | none => (determineContractorStage s k).2
      match findSzablon s etap wariant kanal with
      | none =>
        (false, ("Brak szablonu dla etapu ") ++ toString etap ++ (", wariantu ")
           ++ wariant ++ (", kanału ") ++ kanal ++ ("."), s)
      | some szablon =>
        if pyTruthyStr szablon.tresc = false then
          (false, ("Brak szablonu dla etapu ") ++ toString etap ++ (", wariantu ")
             ++ wariant ++ (", kanału ") ++ kanal ++ ("."), s)
        else
          let ctx := build_message_context s k invoice etap
          let rendered_subject := render_template_content szablon.tytul ctx
          let rendered_body := render_template_content szablon.tresc ctx
          match pyStrOpt (if kanal = ("email") then k.email else k.telefon) with
          | none =>
            (false,
             (if kanal = ("email") then ("Kontrahent nie ma podanego adresu e-mail.")
              else ("Kontrahent nie ma podanego numeru telefonu.")), s)
          | some odbiorca =>
            let success := tr.1
            let log : Korespondencja :=
              { kontrahent_id := k.id,
                invoice_id := invoice.map (fun i => i.id),
                etap := etap, wariant := wariant, kanal := kanal,
                tytul := rendered_subject, tresc := rendered_body,
                status := if success = true then ("wyslana") else ("blad"),
                blad_opis := tr.2, odbiorca := odbiorca }
            (success,
             (if success = true then
                ("Wysłano ") ++ kanal ++ (" do ") ++ odbiorca ++ (".")
              else ("Błąd wysyłki.")),
             { s with korespondencja := log :: s.korespondencja })

/-- Per-stage schedule configuration (`get_harmonogram`'s dict); the
activation offset is already an integer (the source stores a string and
applies `int(...)`). -/
structure Harmonogram where
  dzien_aktywacji : Int
  godzina : String
  dni_tygodnia : String
  aktywny : String
deriving DecidableEq

/-- `DOMYSLNE_HARMONOGRAMY` (src/app.py lines 503-509), extended with
`get_harmonogram`'s fallback defaults for an unknown stage. -/
def DOMYSLNE_HARMONOGRAMY : Nat → Harmonogram
  | 1 => ⟨-3, ("09:00"), ("1,2,3,4,5"), ("tak")⟩
  | 2 => ⟨1, ("09:00"), ("1,2,3,4,5"), ("tak")⟩
  | 3 => ⟨7, ("10:00"), ("1,3,5"), ("tak")⟩
  | 4 => ⟨14, ("10:00"), ("1,3"), ("tak")⟩
  | 5 => ⟨30, ("11:00"), ("2,4"), ("tak")⟩
  | _ => ⟨0, ("09:00"), ("1,2,3,4,5"), ("nie")⟩

/-- `sorted(DOMYSLNE_HARMONOGRAMY.keys())`. -/
def sorted_etapy : List Nat := [1, 2, 3, 4, 5]

/-- The next configured stage's activation offset (src/app.py lines 587-592):
offset of the smallest stage number greater than `etap`, if any. -/
def nextStageOffset (harm : Nat → Harmonogram) (etap : Nat) : Option Int :=
  match sorted_etapy.find? (fun e => decide (etap < e)) with
  | some e => some (harm e).dzien_aktywacji
  | none => none

/-- Test `dni >= next_etap_dzien` guarded by `next_etap_dzien is not None`. -/
def nextGE (nextDz : Option Int) (dni : Int) : Bool :=
  match nextDz with
  | some nd => decide (nd ≤ dni)
  | none => false

/-- Result of one `run_stage_sending` call.  `attempts` is a ghost
observation added for specification purposes: it records, most recent first,
one pair (contractor id, triggering invoice id) per `send_correspondence`
invocation the loop makes. -/
structure RunResult where
  sent : Nat
  errors : Nat
  state : DBState
  attempts : List (Nat × Nat)
deriving DecidableEq

/-- The stage-1 loop of `run_stage_sending` (src/app.py lines 560-583):
for each fetched invoice, recompute its status (an ORM mutation, written
back), fire only when `termin_platnosci - today` equals the absolute value
of the stage-1 offset, skip a missing or BRAK contractor, apply the
duplicate guard, and dispatch with the invoice as override. -/
def runLoop1 (etap : Nat) (today : Int) (dz : Int) (skipDup : Bool)
    (tr : Nat → Bool × Option String) :
    List Invoice → DBState → Nat → Nat → Nat → List (Nat × Nat) → RunResult
  | [], s, sent, errs, _, att => ⟨sent, errs, s, att⟩
  | inv :: rest, s, sent, errs, n, att =>
    let inv2 := obliczStatus today inv
    let s2 := setInvoice s inv2
    if inv.termin_platnosci - today ≠ (Int.natAbs dz : Int) then
      runLoop1 etap today dz skipDup tr rest s2 sent errs n att
    else
      match contractorOf s2 inv with
      | none => runLoop1 etap today dz skipDup tr rest s2 sent errs n att
      | some k =>
        if k.sciezka_windykacji = some ("BRAK") then
          runLoop1 etap today dz skipDup tr rest s2 sent errs n att
        else if skipDup = false ∧
            alreadySentForInvoiceStage s2.korespondencja (some inv.id) etap = true then
          runLoop1 etap today dz skipDup tr rest s2 sent errs n att
        else
          let r := sendCorrespondence s2 etap k.id (some inv2) (tr n)
          runLoop1 etap today dz skipDup tr rest r.2.2
            (if r.1 = true then sent + 1 else sent)
            (if r.1 = true then errs else errs + 1)
            (n + 1) ((k.id, inv.id) :: att)

/-- The stages-2..5 loop of `run_stage_sending` (src/app.py lines 594-616):
for each non-BRAK contractor, take the oldest overdue invoice, recompute its
status (written back), check the `[offset, next offset)` window on its
day-difference, apply the duplicate guard, and dispatch without override. -/
def runLoop25 (etap : Nat) (today : Int) (dz : Int) (nextDz : Option Int)
    (skipDup : Bool) (tr : Nat → Bool × Option String) :
    List Kontrahent → DBState → Nat → Nat → Nat → List (Nat × Nat) → RunResult
  | [], s, sent, errs, _, att => ⟨sent, errs, s, att⟩
  | k :: rest, s, sent, errs, n, att =>
    match oldestOverdue (invoicesOf s k.id) with
    | none => runLoop25 etap today dz nextDz skipDup tr rest s sent errs n att
    | some ov =>
      let ov2 := obliczStatus today ov
      let s2 := setInvoice s ov2
      if ov2.dni_roznica < dz then
        runLoop25 etap today dz nextDz skipDup tr rest s2 sent errs n att
      else if nextGE nextDz ov2.dni_roznica = true then
        runLoop25 etap today dz nextDz skipDup tr rest s2 sent errs n att
      else if skipDup = false ∧
          alreadySentForInvoiceStage s2.korespondencja (some ov.id) etap = true then
        runLoop25 etap today dz nextDz skipDup tr rest s2 sent errs n att
      else
        let r := sendCorrespondence s2 etap k.id none (tr n)
        runLoop25 etap today dz nextDz skipDup tr rest r.2.2
          (if r.1 = true then sent + 1 else sent)
          (if r.1 = true then errs else errs + 1)
          (n + 1) ((k.id, ov.id) :: att)

/-- `run_stage_sending` (src/app.py lines 544-618).  The source's `force`
flag is unused in the body and omitted; `skipDup` is `skip_duplicate_check`;
`harm` stands for `get_harmonogram` and `tr` supplies each transport call's
outcome in invocation order. -/
def run_stage_sending (s : DBState) (today : Int) (harm : Nat → Harmonogram)
    (etap : Nat) (skipDup : Bool) (tr : Nat → Bool × Option String) : RunResult :=
  let dz := (harm etap).dzien_aktywacji
  if etap = 1 then
    let invs := s.invoices.filter (fun i =>
      decide (i.status ≠ ("oplacona")) && i.kontrahent_id.isSome)
    runLoop1 etap today dz skipDup tr invs s 0 0 0 []
  else
    let nextDz := nextStageOffset harm etap
    let ks := s.kontrahenci.filter (fun k =>
      match k.sciezka_windykacji with
      | some w => decide (w ≠ ("BRAK"))
      | none => false)
    runLoop25 etap today dz nextDz skipDup tr ks s 0 0 0 []

/-- The clock values `scheduler_job` reads: `now.strftime('%H:%M')` and
`now.isoweekday()`. -/
structure NowT where
  hhmm : String
  isoweekday : Nat
deriving DecidableEq

/-- The weekday list parsed from a schedule's `dni_tygodnia` string:
`[d.strip() for d in s.split(',') if d.strip()]`. -/
def parseDni (s : String) : List String :=
  ((s.splitOn (",")).map String.trim).filter (fun d => decide (d ≠ ("")))

/-- The firing condition of `scheduler_job` for one stage: enabled, today's
ISO weekday in the active set, and the HH:MM string exactly equal. -/
def schedCond (harm : Nat → Harmonogram) (now : NowT) (e : Nat) : Prop :=
  (harm e).aktywny = ("tak") ∧
  toString now.isoweekday ∈ parseDni (harm e).dni_tygodnia ∧
  now.hhmm = (harm e).godzina

instance (harm : Nat → Harmonogram) (now : NowT) (e : Nat) :
    Decidable (schedCond harm now e) := by
  unfold schedCond
  infer_instance

/-- The per-stage loop of `scheduler_job`, threading the database state and
returning it with the list of stages that actually ran. -/
def schedulerLoop (today : Int) (harm : Nat → Harmonogram) (now : NowT)
    (tr : Nat → Nat → Bool × Option String) :
    List Nat → DBState → DBState × List Nat
  | [], s => (s, [])
  | e :: rest, s =>
    if schedCond harm now e then
      let r := run_stage_sending s today harm e false (tr e)
      let next := schedulerLoop today harm now tr rest r.state
      (next.1, e :: next.2)
    else schedulerLoop today harm now tr rest s

/-- `scheduler_job` (src/app.py lines 621-641): each minute, try every stage
1..5 with the duplicate guard enabled. -/
def scheduler_job (s : DBState) (today : Int) (harm : Nat → Harmonogram)
    (now : NowT) (tr : Nat → Nat → Bool × Option String) : DBState × List Nat :=
  schedulerLoop today harm now tr [1, 2, 3, 4, 5] s

/-- A character list without brace characters. -/
def braceFree (s : List Char) : Prop := lb ∉ s ∧ rb ∉ s

instance (s : List Char) : Decidable (braceFree s) := by
  unfold braceFree
  infer_instance

/-- Specification view of a template text: a sequence of plain chunks and
placeholder tokens.  `joinSegs` below recovers the literal text; requiring
every chunk and key to be brace-free formalises the claim's assumption that
the braces in a template delimit non-overlapping placeholder tokens. -/
inductive Seg where
  | chunk : List Char → Seg
  | tok : List Char → Seg
deriving DecidableEq

/-- The literal text of one segment. -/
def segStr : Seg → List Char
  | .chunk c => c
  | .tok k => tokL k

/-- The literal text of a segment list. -/
def joinSegs (segs : List Seg) : List Char := (segs.map segStr).flatten

/-- Well-formedness of one segment: its chunk or key is brace-free. -/
def segOk : Seg → Prop
  | .chunk c => braceFree c
  | .tok k => braceFree k

instance : (sg : Seg) → Decidable (segOk sg)
  | .chunk c => by unfold segOk; infer_instance
  | .tok k => by unfold segOk; infer_instance

/-- First value bound to a key in a context list (Python dict lookup;
with duplicate keys the first pair wins, matching the renderer's
first-replacement-wins behaviour). -/
def ctxLookup (ctx : List (List Char × List Char)) (w : List Char) :
    Option (List Char) :=
  match ctx with
  | [] => none
  | kv :: rest => if kv.1 = w then some kv.2 else ctxLookup rest w

/-- Specification-level substitution on one segment: a token whose key is in
the context becomes its value, an unknown token stays verbatim. -/
def substSeg (ctx : List (List Char × List Char)) : Seg → Seg
  | .chunk c => .chunk c
  | .tok w =>
    match ctxLookup ctx w with
    | some v => .chunk v
    | none => .tok w

/-- Effect of one `replaceAll (tokL k) v` pass on one segment. -/
def replSeg (k v : List Char) : Seg → Seg
  | .chunk c => .chunk c
  | .tok w => if w = k then .chunk v else .tok w

/-- The claim-side precondition under which `send_correspondence` reaches
the transport-and-log step: contractor found, not BRAK, a usable template
(non-empty body) for its stage/variant/channel, and a truthy recipient
contact field for its channel. -/
def dispatchReadyB (s : DBState) (etap : Nat) (kid : Nat) : Bool :=
  match findKontrahent s kid with
  | none => false
  | some k =>
    let wariant := pyOr k.sciezka_windykacji ("STANDARDOWA")
    if wariant = ("BRAK") then false
    else
      let kanal := pyOr k.metoda_kontaktu ("email")
      match findSzablon s etap wariant kanal with
      | none => false
      | some szablon =>
        pyTruthyStr szablon.tresc &&
          (pyStrOpt (if kanal = ("email") then k.email else k.telefon)).isSome

/-- Invoice statuses are up to date: recomputing any invoice's status for
`today` changes nothing.  Every read path of the source recomputes statuses
before display, so this is the steady state the engine runs in. -/
def freshState (today : Int) (s : DBState) : Prop :=
  ∀ inv ∈ s.invoices, obliczStatus today inv = inv

instance (today : Int) (s : DBState) : Decidable (freshState today s) := by
  unfold freshState
  infer_instance

/-- Invoice primary keys are distinct. -/
def nodupInvIds (s : DBState) : Prop :=
  (s.invoices.map (fun i => i.id)).Nodup

instance (s : DBState) : Decidable (nodupInvIds s) := by
  unfold nodupInvIds
  infer_instance

/-- Contractor primary keys are distinct. -/
def nodupKontrIds (s : DBState) : Prop :=
  (s.kontrahenci.map (fun k => k.id)).Nodup

instance (s : DBState) : Decidable (nodupKontrIds s) := by
  unfold nodupKontrIds
  infer_instance

/-- A transport oracle that always fails (used by concrete evaluations). -/
def trNone : Nat → Bool × Option String := fun _ => (false, none)

/-- Concrete contractor used by several concrete instantiations. -/
def kSta : Kontrahent :=
  ⟨1, ("1112223344"), some ("Alfa"), some ("STANDARDOWA"), some ("email"),
   some ("a@x.pl"), none⟩

/-- Concrete overdue invoice, 10 days past due at day 110. -/
def invTen : Invoice :=
  ⟨1, ("Alfa"), ("F-1"), 500, ("PLN"), 90, 100, none, 10,
   ("przeterminowana"), some 1⟩

/-- Concrete state for the stage-window instantiation (day-difference 10). -/
def sTen : DBState := ⟨[kSta], [invTen], [], [], []⟩

/-- Concrete unpaid invoice due three days after day 100. -/
def invPre : Invoice :=
  ⟨1, ("Alfa"), ("F-2"), 200, ("PLN"), 95, 103, none, -3,
   ("w_terminie"), some 1⟩

/-- Concrete state for the stage-1 instantiation. -/
def sPre : DBState := ⟨[kSta], [invPre], [], [], []⟩

/-- Concrete successfully-sent correspondence row for invoice 1, stage 2. -/
def recSent : Korespondencja :=
  ⟨1, some 1, 2, ("STANDARDOWA"), ("email"), [], [], ("wyslana"), none, ("a@x.pl")⟩

/-- Concrete state whose log already records a successful (invoice 1,
stage 2) send. -/
def sSent : DBState := ⟨[kSta], [invTen], [], [recSent], []⟩

/-- Concrete usable email template for stage 2. -/
def szSta : SzablonKomunikacji :=
  ⟨2, ("STANDARDOWA"), ("email"), some ("Wezwanie"), some ("Prosimy o wplate.")⟩

/-- Concrete state in which dispatch for contractor 1 at stage 2 is ready. -/
def sReady : DBState := ⟨[kSta], [invTen], [szSta], [], []⟩

/-- Concrete overdue invoice exactly 7 days past due at day 107. -/
def invSeven : Invoice :=
  ⟨1, ("Alfa"), ("F-3"), 300, ("PLN"), 90, 100, none, 7,
   ("przeterminowana"), some 1⟩

/-- Concrete state exhibiting the boundary day-difference 7. -/
def sSeven : DBState := ⟨[kSta], [invSeven], [], [], []⟩

/-- Concrete contractor with the BRAK severity path. -/
def kBrak : Kontrahent :=
  ⟨2, ("5556667788"), some ("Beta"), some ("BRAK"), some ("email"),
   some ("b@x.pl"), none⟩

/-- Concrete state containing a BRAK contractor. -/
def sBrak : DBState := ⟨[kBrak], [], [szSta], [], []⟩

/-- Concrete template segments: a greeting, a known placeholder, a plain
middle, an unknown placeholder, and a tail. -/
def wSegs : List Seg :=
  [Seg.chunk (("Szanowni ").data), Seg.tok (("kontrahent_nazwa").data),
   Seg.chunk ((", saldo: ").data), Seg.tok (("saldo").data),
   Seg.chunk ((" PLN").data)]

/-- Concrete two-key context for the renderer instantiation. -/
def wCtx : List (List Char × List Char) :=
  [(("kontrahent_nazwa").data, ("Alfa Sp. z o.o.").data),
   (("nieznany").data, ("X").data)]

/-- The same context with its pairs swapped. -/
def wCtxRev : List (List Char × List Char) :=
  [(("nieznany").data, ("X").data),
   (("kontrahent_nazwa").data, ("Alfa Sp. z o.o.").data)]

/-- Concrete unpaid invoice due at day 10 (the spec's 2025-01-10 scenario,
with "today" = day 15 standing for 2025-01-15). -/
def invDue10 : Invoice :=
  ⟨1, ("Alfa"), ("F-7"), 100, ("PLN"), 5, 10, none, 0, ("nieoplacona"), some 1⟩

/-- Unfolding the scheduler loop into a filter over the stage list. -/
theorem schedulerLoop_spec (today : Int) (harm : Nat → Harmonogram) (now : NowT)
    (tr : Nat → Nat → Bool × Option String) :
    ∀ (es : List Nat) (s : DBState),
      (schedulerLoop today harm now tr es s).2
        = es.filter (fun e => decide (schedCond harm now e)) ∧
      (schedulerLoop today harm now tr es s).1
        = (es.filter (fun e => decide (schedCond harm now e))).foldl
            (fun st e => (run_stage_sending st today harm e false (tr e)).state) s := by
  intro es
  induction es with
  | nil => intro s; simp [schedulerLoop]
  | cons e rest ih =>
    intro s
    by_cases hc : schedCond harm now e
    · simpa [schedulerLoop, hc, List.filter_cons] using
        ih (run_stage_sending s today harm e false (tr e)).state
    · simpa [schedulerLoop, hc, List.filter_cons] using ih s

/-- C9.  On every scheduler tick, a stage's dispatch loop runs iff the stage
is one of 1..5, its enabled flag is `tak`, the current ISO weekday (as a
string) is in its parsed weekday set, and the current HH:MM equals the
configured time exactly; the final state is the fold of `run_stage_sending`
with the duplicate guard enabled (skip_duplicate_check = false) over exactly
the stages that ran. -/
theorem claim_C9 (s : DBState) (today : Int) (harm : Nat → Harmonogram)
    (now : NowT) (tr : Nat → Nat → Bool × Option String) :
    (∀ e, e ∈ (scheduler_job s today harm now tr).2 ↔
       (e ∈ ([1, 2, 3, 4, 5] : List Nat) ∧ (harm e).aktywny = ("tak") ∧
        toString now.isoweekday ∈ parseDni (harm e).dni_tygodnia ∧
        now.hhmm = (harm e).godzina)) ∧
    ((scheduler_job s today harm now tr).1 =
       ((scheduler_job s today harm now tr).2).foldl
         (fun st e => (run_stage_sending st today harm e false (tr e)).state) s) := by
  obtain ⟨h2, h1⟩ := schedulerLoop_spec today harm now tr [1, 2, 3, 4, 5] s
  constructor
  · intro e
    rw [scheduler_job, h2, List.mem_filter]
    simp [schedCond]
  · rw [scheduler_job, h1, h2]

/-- C7.  `oblicz_status`: with a paid date, day-difference is
paid − due and status `oplacona`; otherwise day-difference is today − due
(negative before the due date), status `przeterminowana` exactly when it is
positive and `w_terminie` otherwise; and the aging bucket of the unpaid
invoice maps day-difference ≤ 0 to `w_terminie`, 1..30 to `1-30`,
31..60 to `31-60`, 61..90 to `61-90` and above 90 to `90+`. -/
theorem claim_C7 (inv : Invoice) (today : Int) :
    (∀ dp, inv.data_platnosci = some dp →
       (obliczStatus today inv).dni_roznica = dp - inv.termin_platnosci ∧
       (obliczStatus today inv).status = ("oplacona")) ∧
    (inv.data_platnosci = none →
       (obliczStatus today inv).dni_roznica = today - inv.termin_platnosci ∧
       ((obliczStatus today inv).status = ("przeterminowana") ↔
          0 < today - inv.termin_platnosci) ∧
       (today - inv.termin_platnosci ≤ 0 →
          (obliczStatus today inv).status = ("w_terminie")) ∧
       (today - inv.termin_platnosci ≤ 0 →
          kategoria_zaleglosci (obliczStatus today inv) = ("w_terminie")) ∧
       (1 ≤ today - inv.termin_platnosci ∧ today - inv.termin_platnosci ≤ 30 →
          kategoria_zaleglosci (obliczStatus today inv) = ("1-30")) ∧
       (31 ≤ today - inv.termin_platnosci ∧ today - inv.termin_platnosci ≤ 60 →
          kategoria_zaleglosci (obliczStatus today inv) = ("31-60")) ∧
       (61 ≤ today - inv.termin_platnosci ∧ today - inv.termin_platnosci ≤ 90 →
          kategoria_zaleglosci (obliczStatus today inv) = ("61-90")) ∧
       (90 < today - inv.termin_platnosci →
          kategoria_zaleglosci (obliczStatus today inv) = ("90+"))) := by
  constructor
  · intro dp h
    simp [obliczStatus, h]
  · intro h
    refine ⟨by simp [obliczStatus, h], ?_, ?_, ?_, ?_, ?_, ?_, ?_⟩
    · simp only [obliczStatus, h]
      split_ifs with hd <;> simp <;> omega
    · intro hd
      simp [obliczStatus, h, hd]
    · intro hd
      simp [obliczStatus, h, hd, kategoria_zaleglosci]
    · rintro ⟨h1, h2⟩
      have hd : ¬ (today - inv.termin_platnosci ≤ 0) := by omega
      simp [obliczStatus, h, hd, kategoria_zaleglosci, h2]
    · rintro ⟨h1, h2⟩
      have hd : ¬ (today - inv.termin_platnosci ≤ 0) := by omega
      have h30 : ¬ (today - inv.termin_platnosci ≤ 30) := by omega
      simp [obliczStatus, h, hd, kategoria_zaleglosci, h2, h30]
    · rintro ⟨h1, h2⟩
      have hd : ¬ (today - inv.termin_platnosci ≤ 0) := by omega
      have h30 : ¬ (today - inv.termin_platnosci ≤ 30) := by omega
      have h60 : ¬ (today - inv.termin_platnosci ≤ 60) := by omega
      simp [obliczStatus, h, hd, kategoria_zaleglosci, h2, h30, h60]
    · intro h1
      have hd : ¬ (today - inv.termin_platnosci ≤ 0) := by omega
      have h30 : ¬ (today - inv.termin_platnosci ≤ 30) := by omega
      have h60 : ¬ (today - inv.termin_platnosci ≤ 60) := by omega
      have h90 : ¬ (today - inv.termin_platnosci ≤ 90) := by omega
      simp [obliczStatus, h, hd, kategoria_zaleglosci, h30, h60, h90]

/-- Instantiation of C7 at the spec's scenario: invoice due day 10, unpaid,
today day 15: status `przeterminowana` and bucket `1-30`. -/
theorem claim_C7_witness :
    invDue10.data_platnosci = none ∧
    (obliczStatus 15 invDue10).status = ("przeterminowana") ∧
    kategoria_zaleglosci (obliczStatus 15 invDue10) = ("1-30") :=
  ⟨rfl,
   ((claim_C7 invDue10 15).2 rfl).2.1.mpr (by decide),
   ((claim_C7 invDue10 15).2 rfl).2.2.2.2.1 (by decide)⟩

/-- C10.  The duplicate guard returns false whenever the invoice id is
absent, and whenever it returns true the id was a concrete positive id —
so records without an invoice link never suppress a send. -/
theorem claim_C10 :
    (∀ (log : List Korespondencja) (etap : Nat),
       alreadySentForInvoiceStage log none etap = false) ∧
    (∀ (log : List Korespondencja) (iid : Option Nat) (etap : Nat),
       alreadySentForInvoiceStage log iid etap = true →
       ∃ i, iid = some i ∧ 0 < i) := by
  constructor
  · intro log etap
    rfl
  · intro log iid etap h
    cases iid with
    | none => simp [alreadySentForInvoiceStage] at h
    | some i =>
      refine ⟨i, rfl, ?_⟩
      rcases Nat.eq_zero_or_pos i with h0 | h0
      · subst h0
        simp [alreadySentForInvoiceStage] at h
      · exact h0

/-- Instantiation of C10 at a concrete log. -/
theorem claim_C10_witness :
    alreadySentForInvoiceStage [recSent] none 5 = false ∧
    (∃ i, (some 1 : Option Nat) = some i ∧ 0 < i) :=
  ⟨claim_C10.1 [recSent] 5, claim_C10.2 [recSent] (some 1) 2 (by decide)⟩

theorem lb_ne_rb : lb ≠ rb := by decide

theorem isPre_cons_cons (a b : Char) (as bs : List Char) :
    isPre (a :: as) (b :: bs) = (decide (a = b) && isPre as bs) := rfl

theorem isPre_self_append (p u : List Char) : isPre p (p ++ u) = true := by
  induction p with
  | nil => cases u <;> rfl
  | cons a as ih => simp [isPre_cons_cons, ih]

/-- A key token never matches at the start of a different key's token. -/
theorem isPre_key_ne (k : List Char) :
    ∀ (w u : List Char), rb ∉ k → rb ∉ w → k ≠ w →
      isPre (k ++ [rb]) (w ++ (rb :: u)) = false := by
  induction k with
  | nil =>
    intro w u _ hw hne
    cases w with
    | nil => exact absurd rfl hne
    | cons b w' =>
      have hb : rb ≠ b := fun h => hw (h ▸ List.mem_cons_self b w')
      simp [isPre_cons_cons, hb]
  | cons a k' ih =>
    intro w u hk hw hne
    cases w with
    | nil =>
      have ha : a ≠ rb := fun h => hk (h ▸ List.mem_cons_self a k')
      simp [isPre_cons_cons, ha]
    | cons b w' =>
      by_cases hab : a = b
      · subst hab
        have hk' : rb ∉ k' := fun h => hk (List.mem_cons_of_mem _ h)
        have hw' : rb ∉ w' := fun h => hw (List.mem_cons_of_mem _ h)
        have hne' : k' ≠ w' := fun h => hne (by rw [h])
        simpa [isPre_cons_cons] using ih w' u hk' hw' hne'
      · simp [isPre_cons_cons, hab]

theorem replaceAll_nil (pat repl : List Char) : replaceAll pat repl [] = [] := by
  simp [replaceAll]

theorem replaceAll_cons (pat repl : List Char) (c : Char) (rest : List Char) :
    replaceAll pat repl (c :: rest) =
      if isPre pat (c :: rest) then
        repl ++ replaceAll pat repl (rest.drop (pat.length - 1))
      else c :: replaceAll pat repl rest := by
  rw [replaceAll]

/-- `str.replace` copies a brace-free piece of text unchanged. -/
theorem replaceAll_chunk (t repl : List Char) :
    ∀ (p u : List Char), lb ∉ p →
      replaceAll (lb :: t) repl (p ++ u) = p ++ replaceAll (lb :: t) repl u := by
  intro p
  induction p with
  | nil => intro u _; simp
  | cons c p' ih =>
    intro u hp
    have hc : ¬ (lb = c) := fun h => hp (h ▸ List.mem_cons_self c p')
    have hpre : isPre (lb :: t) (c :: (p' ++ u)) = false := by
      simp [isPre_cons_cons, hc]
    rw [List.cons_append, replaceAll_cons, hpre]
    simp only [Bool.false_eq_true, if_false, List.cons_append]
    rw [ih u (fun h => hp (List.mem_cons_of_mem _ h))]

theorem joinSegs_nil : joinSegs [] = [] := rfl

theorem joinSegs_cons (sg : Seg) (rest : List Seg) :
    joinSegs (sg :: rest) = segStr sg ++ joinSegs rest := by
  simp [joinSegs]

/-- One `replaceAll` pass over a well-formed template substitutes exactly the
segments that are tokens of the replaced key. -/
theorem replaceAll_joinSegs (k v : List Char) (hkOk : braceFree k) :
    ∀ (segs : List Seg), (∀ sg ∈ segs, segOk sg) →
      replaceAll (tokL k) v (joinSegs segs) = joinSegs (segs.map (replSeg k v)) := by
  intro segs
  induction segs with
  | nil => intro _; simp [joinSegs_nil, replaceAll_nil]
  | cons sg rest ih =>
    intro hok
    have hsg : segOk sg := hok sg (List.mem_cons_self _ _)
    have hrest : ∀ s ∈ rest, segOk s := fun s hs => hok s (List.mem_cons_of_mem _ hs)
    rw [joinSegs_cons, List.map_cons, joinSegs_cons]
    cases sg with
    | chunk c =>
      have hc : lb ∉ c := hsg.1
      show replaceAll (lb :: (k ++ [rb])) v (c ++ joinSegs rest)
        = segStr (replSeg k v (Seg.chunk c)) ++ joinSegs (rest.map (replSeg k v))
      rw [replaceAll_chunk (k ++ [rb]) v c (joinSegs rest) hc]
      have ih2 := ih hrest
      simp only [tokL] at ih2
      rw [ih2]
      rfl
    | tok w =>
      have hwOk : braceFree w := hsg
      show replaceAll (tokL k) v (tokL w ++ joinSegs rest)
        = segStr (replSeg k v (Seg.tok w)) ++ joinSegs (rest.map (replSeg k v))
      by_cases hw : w = k
      · subst hw
        show replaceAll (tokL w) v ((lb :: (w ++ [rb])) ++ joinSegs rest) = _
        rw [List.cons_append, replaceAll_cons]
        have hpre : isPre (tokL w) (lb :: ((w ++ [rb]) ++ joinSegs rest)) = true := by
          show isPre (lb :: (w ++ [rb])) _ = true
          simpa [isPre_cons_cons] using isPre_self_append (w ++ [rb]) (joinSegs rest)
        rw [hpre, if_pos rfl]
        have hlen : (tokL w).length - 1 = (w ++ [rb]).length := by
          simp [tokL]
        rw [hlen, List.drop_left, ih hrest]
        have hrepl : replSeg w v (Seg.tok w) = Seg.chunk v := by
          simp [replSeg]
        rw [hrepl]
        rfl
      · have hpre : isPre (tokL k) (lb :: ((w ++ [rb]) ++ joinSegs rest)) = false := by
          show isPre (lb :: (k ++ [rb])) _ = false
          rw [isPre_cons_cons]
          have hassoc : (w ++ [rb]) ++ joinSegs rest = w ++ (rb :: joinSegs rest) := by
            simp
          rw [hassoc]
          rw [isPre_key_ne k w (joinSegs rest) hkOk.2 hwOk.2 (fun h => hw h.symm)]
          simp
        show replaceAll (tokL k) v ((lb :: (w ++ [rb])) ++ joinSegs rest) = _
        rw [List.cons_append, replaceAll_cons, hpre]
        simp only [Bool.false_eq_true, if_false]
        simp only [tokL]
        rw [replaceAll_chunk (k ++ [rb]) v (w ++ [rb]) (joinSegs rest)
          (by
            intro hmem
            rcases List.mem_append.mp hmem with h1 | h1
            · exact hwOk.1 h1
            · exact lb_ne_rb (by simpa using h1))]
        have ih2 := ih hrest
        simp only [tokL] at ih2
        rw [ih2]
        have hrepl : replSeg k v (Seg.tok w) = Seg.tok w := by
          simp [replSeg, hw]
        rw [hrepl]
        show lb :: ((w ++ [rb]) ++ joinSegs (rest.map (replSeg k v)))
          = segStr (Seg.tok w) ++ joinSegs (rest.map (replSeg k v))
        simp [segStr, tokL]

theorem substSeg_nil (sg : Seg) : substSeg [] sg = sg := by
  cases sg <;> rfl

theorem substSeg_cons (kv : List Char × List Char)
    (ctx : List (List Char × List Char)) (sg : Seg) :
    substSeg (kv :: ctx) sg = substSeg ctx (replSeg kv.1 kv.2 sg) := by
  cases sg with
  | chunk c => rfl
  | tok w =>
    by_cases hw : kv.1 = w
    · simp [substSeg, ctxLookup, replSeg, hw]
    · have hw2 : ¬ (w = kv.1) := fun h => hw (Eq.symm h)
      simp only [substSeg, ctxLookup, replSeg, if_neg hw, if_neg hw2]

theorem segOk_replSeg (k v : List Char) (hv : braceFree v) (sg : Seg)
    (h : segOk sg) : segOk (replSeg k v sg) := by
  cases sg with
  | chunk c => exact h
  | tok w =>
    by_cases hw : w = k
    · simpa [replSeg, hw, segOk] using hv
    · simpa [replSeg, hw, segOk] using h

/-- The renderer's fold of `replaceAll` passes over a well-formed template is
segment-wise substitution: every token of a context key is replaced by the
(first) value of that key, every other token stays verbatim. -/
theorem renderFold_joinSegs :
    ∀ (ctx : List (List Char × List Char)) (segs : List Seg),
      (∀ kv ∈ ctx, braceFree kv.1 ∧ braceFree kv.2) →
      (∀ sg ∈ segs, segOk sg) →
      ctx.foldl (fun acc kv => replaceAll (tokL kv.1) kv.2 acc) (joinSegs segs)
        = joinSegs (segs.map (substSeg ctx)) := by
  intro ctx
  induction ctx with
  | nil =>
    intro segs _ _
    simp only [List.foldl_nil]
    have : segs.map (substSeg []) = segs := by
      rw [show segs.map (substSeg []) = segs.map id from
        List.map_congr_left (fun sg _ => substSeg_nil sg), List.map_id]
    rw [this]
  | cons kv ctx ih =>
    intro segs hctx hsegs
    obtain ⟨hk, hv⟩ := hctx kv (List.mem_cons_self _ _)
    have hctx' : ∀ p ∈ ctx, braceFree p.1 ∧ braceFree p.2 :=
      fun p hp => hctx p (List.mem_cons_of_mem _ hp)
    rw [List.foldl_cons, replaceAll_joinSegs kv.1 kv.2 hk segs hsegs]
    rw [ih (segs.map (replSeg kv.1 kv.2)) hctx'
      (fun sg hsg => by
        rcases List.mem_map.mp hsg with ⟨sg0, hsg0, rfl⟩
        exact segOk_replSeg kv.1 kv.2 hv sg0 (hsegs sg0 hsg0))]
    rw [List.map_map]
    congr 1
    apply List.map_congr_left
    intro sg _
    exact (substSeg_cons kv ctx sg).symm

/-- Dict lookup is order-independent when keys are distinct. -/
theorem ctxLookup_perm {ctx ctx' : List (List Char × List Char)}
    (h : ctx.Perm ctx') :
    ∀ (w : List Char), (ctx.map Prod.fst).Nodup →
      ctxLookup ctx w = ctxLookup ctx' w := by
  induction h with
  | nil => intro w _; rfl
  | cons x h ih =>
    intro w hnd
    rw [List.map_cons, List.nodup_cons] at hnd
    by_cases hx : x.1 = w
    · simp [ctxLookup, hx]
    · simp only [ctxLookup, if_neg hx]
      exact ih w hnd.2
  | swap x y l =>
    intro w hnd
    simp only [List.map_cons, List.nodup_cons, List.mem_cons] at hnd
    by_cases hy : y.1 = w <;> by_cases hx : x.1 = w
    · exact absurd (hy.trans hx.symm) (fun hh => hnd.1 (Or.inl hh))
    · simp [ctxLookup, hy, hx]
    · simp [ctxLookup, hy, hx]
    · simp [ctxLookup, hy, hx]
  | trans h1 h2 ih1 ih2 =>
    intro w hnd
    refine (ih1 w hnd).trans (ih2 w ?_)
    exact ((h1.map Prod.fst).nodup_iff).mp hnd

theorem segStr_substSeg_of_nil (ctx : List (List Char × List Char)) (sg : Seg)
    (h : segStr sg = []) : segStr (substSeg ctx sg) = [] := by
  cases sg with
  | chunk c => exact h
  | tok w => exact absurd h (by simp [segStr, tokL])

/-- C8.  For a template text whose braces all delimit placeholder tokens
(the claim's non-overlapping-tokens assumption, given by the segment
decomposition) and a context whose keys and values are brace-free (the
claim's no-value-contains-a-placeholder assumption),
`render_template_content` replaces every token of a context key by that
key's string value, leaves every token with a key absent from the context
verbatim (never failing), and — when the context keys are distinct — the
result is independent of the order of the context pairs. -/
theorem claim_C8 (segs : List Seg) (ctx ctx' : List (List Char × List Char))
    (hsegs : ∀ sg ∈ segs, segOk sg)
    (hctx : ∀ kv ∈ ctx, braceFree kv.1 ∧ braceFree kv.2) :
    render_template_content (some (String.mk (joinSegs segs))) ctx
      = joinSegs (segs.map (substSeg ctx)) ∧
    (ctx.Perm ctx' → (ctx.map Prod.fst).Nodup →
      render_template_content (some (String.mk (joinSegs segs))) ctx'
        = render_template_content (some (String.mk (joinSegs segs))) ctx) := by
  have hmain : ∀ (c : List (List Char × List Char)),
      (∀ kv ∈ c, braceFree kv.1 ∧ braceFree kv.2) →
      render_template_content (some (String.mk (joinSegs segs))) c
        = joinSegs (segs.map (substSeg c)) := by
    intro c hc
    show (if String.mk (joinSegs segs) = ("") then []
          else c.foldl (fun acc kv => replaceAll (tokL kv.1) kv.2 acc)
            (String.mk (joinSegs segs)).data) = _
    by_cases h0 : String.mk (joinSegs segs) = ("")
    · rw [if_pos h0]
      have hnil : joinSegs segs = [] := by
        have h1 := congrArg String.data h0
        simpa using h1
      symm
      rw [joinSegs] at hnil ⊢
      rw [List.flatten_eq_nil_iff] at hnil ⊢
      intro x hx
      rcases List.mem_map.mp hx with ⟨sg, hsg, rfl⟩
      rcases List.mem_map.mp hsg with ⟨sg0, hsg0, rfl⟩
      exact segStr_substSeg_of_nil c sg0 (hnil _ (List.mem_map_of_mem _ hsg0))
    · rw [if_neg h0]
      exact renderFold_joinSegs c segs hc hsegs
  constructor
  · exact hmain ctx hctx
  · intro hperm hnd
    have hctx' : ∀ kv ∈ ctx', braceFree kv.1 ∧ braceFree kv.2 :=
      fun kv hkv => hctx kv (hperm.mem_iff.mpr hkv)
    rw [hmain ctx' hctx', hmain ctx hctx]
    congr 1
    apply List.map_congr_left
    intro sg _
    cases sg with
    | chunk c => rfl
    | tok w =>
      show substSeg ctx' (Seg.tok w) = substSeg ctx (Seg.tok w)
      simp only [substSeg]
      rw [← ctxLookup_perm hperm w hnd]

/-- Instantiation of C8 at a concrete template with a known and an unknown
placeholder and a two-key context, also permuted. -/
theorem claim_C8_witness :
    (∀ sg ∈ wSegs, segOk sg) ∧
    render_template_content (some (String.mk (joinSegs wSegs))) wCtx
      = joinSegs (wSegs.map (substSeg wCtx)) ∧
    render_template_content (some (String.mk (joinSegs wSegs))) wCtxRev
      = render_template_content (some (String.mk (joinSegs wSegs))) wCtx :=
  ⟨by decide,
   (claim_C8 wSegs wCtx wCtxRev (by decide) (by decide)).1,
   (claim_C8 wSegs wCtx wCtxRev (by decide) (by decide)).2 (by decide) (by decide)⟩

/-- Unpacking `dispatchReadyB = true` into the concrete facts the dispatch
path uses. -/
theorem dispatchReady_elim (s : DBState) (etap kid : Nat)
    (h : dispatchReadyB s etap kid = true) :
    ∃ k sz odb, findKontrahent s kid = some k ∧
      ¬ pyOr k.sciezka_windykacji ("STANDARDOWA") = ("BRAK") ∧
      findSzablon s etap (pyOr k.sciezka_windykacji ("STANDARDOWA"))
        (pyOr k.metoda_kontaktu ("email")) = some sz ∧
      pyTruthyStr sz.tresc = true ∧
      pyStrOpt (if pyOr k.metoda_kontaktu ("email") = ("email")
        then k.email else k.telefon) = some odb := by
  cases hk : findKontrahent s kid with
  | none => simp [dispatchReadyB, hk] at h
  | some k =>
    by_cases hb : pyOr k.sciezka_windykacji ("STANDARDOWA") = ("BRAK")
    · simp [dispatchReadyB, hk, hb] at h
    · cases hsz : findSzablon s etap (pyOr k.sciezka_windykacji ("STANDARDOWA"))
          (pyOr k.metoda_kontaktu ("email")) with
      | none => simp [dispatchReadyB, hk, hb, hsz] at h
      | some sz =>
        simp only [dispatchReadyB, hk, if_neg hb, hsz, Bool.and_eq_true,
          Option.isSome_iff_exists] at h
        obtain ⟨ht, odb, hoo⟩ := h
        exact ⟨k, sz, odb, rfl, hb, hsz, ht, hoo⟩


/-- Full evaluation of `send_correspondence` along the successful-precondition
path: the transport outcome is returned and exactly one log row is
prepended, carrying the transport status and error detail. -/
theorem sc_step (s : DBState) (etap kid : Nat) (ovr : Option Invoice)
    (tr : Bool × Option String) (k : Kontrahent) (sz : SzablonKomunikacji)
    (odb : String)
    (hk : findKontrahent s kid = some k)
    (hb : ¬ pyOr k.sciezka_windykacji ("STANDARDOWA") = ("BRAK"))
    (hsz : findSzablon s etap (pyOr k.sciezka_windykacji ("STANDARDOWA"))
      (pyOr k.metoda_kontaktu ("email")) = some sz)
    (ht : pyTruthyStr sz.tresc = true)
    (hoo : pyStrOpt (if pyOr k.metoda_kontaktu ("email") = ("email")
      then k.email else k.telefon) = some odb) :
    sendCorrespondence s etap kid ovr tr =
      (tr.1,
       (if tr.1 = true then
          ("Wysłano ") ++ pyOr k.metoda_kontaktu ("email") ++ (" do ") ++ odb ++ (".")
        else ("Błąd wysyłki.")),
       { s with korespondencja :=
           { kontrahent_id := k.id,
             invoice_id := ((match ovr with
               | some inv => some inv
               | none => (determineContractorStage s k).2 : Option Invoice)).map
                 (fun i => i.id),
             etap := etap,
             wariant := pyOr k.sciezka_windykacji ("STANDARDOWA"),
             kanal := pyOr k.metoda_kontaktu ("email"),
             tytul := render_template_content sz.tytul
               (build_message_context s k (match ovr with
                 | some inv => some inv
                 | none => (determineContractorStage s k).2) etap),
             tresc := render_template_content sz.tresc
               (build_message_context s k (match ovr with
                 | some inv => some inv
                 | none => (determineContractorStage s k).2) etap),
             status := if tr.1 = true then ("wyslana") else ("blad"),
             blad_opis := tr.2,
             odbiorca := odb } :: s.korespondencja }) := by
  simp only [sendCorrespondence, hk, hsz, hoo, if_neg hb, ht]
  simp

/-- `send_correspondence` on any failing-precondition path returns failure
and leaves the state untouched. -/
theorem sc_notready (s : DBState) (etap kid : Nat) (ovr : Option Invoice)
    (tr : Bool × Option String) (h : dispatchReadyB s etap kid = false) :
    (sendCorrespondence s etap kid ovr tr).1 = false ∧
    (sendCorrespondence s etap kid ovr tr).2.2 = s := by
  cases hk : findKontrahent s kid with
  | none => simp [sendCorrespondence, hk]
  | some k =>
    by_cases hb : pyOr k.sciezka_windykacji ("STANDARDOWA") = ("BRAK")
    · simp [sendCorrespondence, hk, hb]
    · cases hsz : findSzablon s etap (pyOr k.sciezka_windykacji ("STANDARDOWA"))
          (pyOr k.metoda_kontaktu ("email")) with
      | none => simp [sendCorrespondence, hk, if_neg hb, hsz]
      | some sz =>
        cases hx : pyTruthyStr sz.tresc with
        | false => simp [sendCorrespondence, hk, if_neg hb, hsz, hx]
        | true =>
          cases hoo : pyStrOpt (if pyOr k.metoda_kontaktu ("email") = ("email")
              then k.email else k.telefon) with
          | none => simp [sendCorrespondence, hk, if_neg hb, hsz, hx, hoo]
          | some odb =>
            exfalso
            simp [dispatchReadyB, hk, if_neg hb, hsz, hx, hoo] at h

/-- BRAK severity forces an immediate failure of `send_correspondence`
without any state change, for every stage and every override. -/
theorem sc_brak (s : DBState) (etap kid : Nat) (ovr : Option Invoice)
    (tr : Bool × Option String) (k : Kontrahent)
    (hk : findKontrahent s kid = some k)
    (hbrak : k.sciezka_windykacji = some ("BRAK")) :
    (sendCorrespondence s etap kid ovr tr).1 = false ∧
    (sendCorrespondence s etap kid ovr tr).2.2 = s := by
  have hb : pyOr k.sciezka_windykacji ("STANDARDOWA") = ("BRAK") := by
    simp [pyOr, hbrak]
  simp [sendCorrespondence, hk, hb]

theorem pickMin_fold_none :
    ∀ (m : List Invoice) (acc : Option Invoice),
      m.foldl pickMin acc = none → m = [] ∧ acc = none := by
  intro m
  induction m with
  | nil => intro acc h; exact ⟨rfl, h⟩
  | cons i m' ih =>
    intro acc h
    rw [List.foldl_cons] at h
    obtain ⟨hm', hacc⟩ := ih (pickMin acc i) h
    exfalso
    cases acc with
    | none => simp [pickMin] at hacc
    | some j =>
      by_cases hij : i.termin_platnosci < j.termin_platnosci <;>
        simp [pickMin, hij] at hacc

theorem pickMin_fold_some :
    ∀ (m : List Invoice) (acc : Option Invoice) (ov : Invoice),
      m.foldl pickMin acc = some ov →
      (ov ∈ m ∨ acc = some ov) ∧
      (∀ j ∈ m, ov.termin_platnosci ≤ j.termin_platnosci) ∧
      (∀ a, acc = some a → ov.termin_platnosci ≤ a.termin_platnosci) := by
  intro m
  induction m with
  | nil =>
    intro acc ov h
    refine ⟨Or.inr h, by simp, ?_⟩
    intro a ha
    rw [ha] at h
    cases h
    exact le_refl _
  | cons i m' ih =>
    intro acc ov h
    rw [List.foldl_cons] at h
    obtain ⟨hmem, hmin, hacc⟩ := ih (pickMin acc i) ov h
    cases acc with
    | none =>
      have hi : ov.termin_platnosci ≤ i.termin_platnosci := hacc i rfl
      refine ⟨?_, ?_, ?_⟩
      · rcases hmem with hm | hs
        · exact Or.inl (List.mem_cons_of_mem _ hm)
        · have : i = ov := by simpa [pickMin] using hs
          exact Or.inl (this ▸ List.mem_cons_self i m')
      · intro j hj
        rcases List.mem_cons.mp hj with rfl | hj'
        · exact hi
        · exact hmin j hj'
      · intro a ha
        exact Option.noConfusion ha
    | some a0 =>
      by_cases hlt : i.termin_platnosci < a0.termin_platnosci
      · have hfi : pickMin (some a0) i = some i := by simp [pickMin, hlt]
        rw [hfi] at hmem hacc
        have hi : ov.termin_platnosci ≤ i.termin_platnosci := hacc i rfl
        refine ⟨?_, ?_, ?_⟩
        · rcases hmem with hm | hs
          · exact Or.inl (List.mem_cons_of_mem _ hm)
          · have : i = ov := by simpa using hs
            exact Or.inl (this ▸ List.mem_cons_self i m')
        · intro j hj
          rcases List.mem_cons.mp hj with rfl | hj'
          · exact hi
          · exact hmin j hj'
        · intro a ha
          have hh : a0 = a := by simpa using ha
          subst hh
          omega
      · have hfi : pickMin (some a0) i = some a0 := by simp [pickMin, hlt]
        rw [hfi] at hmem hacc
        have ha0 : ov.termin_platnosci ≤ a0.termin_platnosci := hacc a0 rfl
        refine ⟨?_, ?_, ?_⟩
        · rcases hmem with hm | hs
          · exact Or.inl (List.mem_cons_of_mem _ hm)
          · exact Or.inr hs
        · intro j hj
          rcases List.mem_cons.mp hj with rfl | hj'
          · omega
          · exact hmin j hj'
        · intro a ha
          have hh : a0 = a := by simpa using ha
          subst hh
          exact ha0
    
theorem oldestOverdue_some (l : List Invoice) (ov : Invoice)
    (h : oldestOverdue l = some ov) :
    ov ∈ l ∧ ov.status = ("przeterminowana") ∧
    ∀ j ∈ l, j.status = ("przeterminowana") →
      ov.termin_platnosci ≤ j.termin_platnosci := by
  unfold oldestOverdue at h
  obtain ⟨hmem, hmin, _⟩ := pickMin_fold_some _ none ov h
  rcases hmem with hm | hs
  · have := List.mem_filter.mp hm
    refine ⟨this.1, by simpa using this.2, ?_⟩
    intro j hj hjs
    exact hmin j (List.mem_filter.mpr ⟨hj, by simpa using hjs⟩)
  · exact Option.noConfusion hs

theorem oldestOverdue_none (l : List Invoice) (h : oldestOverdue l = none) :
    ∀ j ∈ l, j.status ≠ ("przeterminowana") := by
  unfold oldestOverdue at h
  have := (pickMin_fold_none _ none h).1
  intro j hj hjs
  have : j ∈ l.filter (fun i => decide (i.status = ("przeterminowana"))) :=
    List.mem_filter.mpr ⟨hj, by simpa using hjs⟩
  rw [pickMin_fold_none _ none h |>.1] at this
  cases this

theorem invoice_id_inj (s : DBState) (hnd : nodupInvIds s) {a b : Invoice}
    (ha : a ∈ s.invoices) (hb : b ∈ s.invoices) (h : a.id = b.id) : a = b :=
  List.inj_on_of_nodup_map hnd ha hb h

theorem kontr_id_inj (s : DBState) (hnd : nodupKontrIds s) {a b : Kontrahent}
    (ha : a ∈ s.kontrahenci) (hb : b ∈ s.kontrahenci) (h : a.id = b.id) : a = b :=
  List.inj_on_of_nodup_map hnd ha hb h

theorem setInvoice_self (s : DBState) (inv : Invoice) (hmem : inv ∈ s.invoices)
    (hnd : nodupInvIds s) : setInvoice s inv = s := by
  unfold setInvoice
  have hmap : s.invoices.map (fun i => if i.id = inv.id then inv else i)
      = s.invoices := by
    rw [show s.invoices.map (fun i => if i.id = inv.id then inv else i)
        = s.invoices.map id from
      List.map_congr_left (fun i hi => by
        by_cases hii : i.id = inv.id
        · rw [if_pos hii]
          exact (invoice_id_inj s hnd hi hmem hii).symm
        · rw [if_neg hii]
          rfl)]
    exact List.map_id s.invoices
  rw [hmap]

theorem obliczStatus_id (today : Int) (inv : Invoice) :
    (obliczStatus today inv).id = inv.id := by
  cases h : inv.data_platnosci <;> simp [obliczStatus, h]

theorem findKontrahent_id (s : DBState) (kid : Nat) (k : Kontrahent)
    (h : findKontrahent s kid = some k) : k.id = kid ∧ k ∈ s.kontrahenci := by
  unfold findKontrahent at h
  refine ⟨?_, List.mem_of_find?_eq_some h⟩
  have := List.find?_some h
  simpa using this

theorem sc_preserves (s : DBState) (etap kid : Nat) (ovr : Option Invoice)
    (tr : Bool × Option String) :
    ((sendCorrespondence s etap kid ovr tr).2.2).kontrahenci = s.kontrahenci ∧
    ((sendCorrespondence s etap kid ovr tr).2.2).invoices = s.invoices ∧
    ((sendCorrespondence s etap kid ovr tr).2.2).szablony = s.szablony ∧
    ((sendCorrespondence s etap kid ovr tr).2.2).config = s.config := by
  cases hready : dispatchReadyB s etap kid with
  | true =>
    obtain ⟨k, sz, odb, hk, hb, hsz, ht, hoo⟩ := dispatchReady_elim s etap kid hready
    rw [sc_step s etap kid ovr tr k sz odb hk hb hsz ht hoo]
    exact ⟨rfl, rfl, rfl, rfl⟩
  | false =>
    rw [(sc_notready s etap kid ovr tr hready).2]
    exact ⟨rfl, rfl, rfl, rfl⟩

/-- Every `send_correspondence` call either leaves the log unchanged or
prepends exactly one row whose stage is the call's stage and whose invoice
id is the id of the resolved invoice. -/
theorem sc_koresp (s : DBState) (etap kid : Nat) (ovr : Option Invoice)
    (tr : Bool × Option String) :
    ((sendCorrespondence s etap kid ovr tr).2.2).korespondencja
        = s.korespondencja ∨
    ∃ k r, findKontrahent s kid = some k ∧
      ((sendCorrespondence s etap kid ovr tr).2.2).korespondencja
        = r :: s.korespondencja ∧
      r.etap = etap ∧
      r.invoice_id = ((match ovr with
        | some inv => some inv
        | none => (determineContractorStage s k).2 : Option Invoice)).map
          (fun i => i.id) ∧
      r.status = (if tr.1 = true then ("wyslana") else ("blad")) := by
  cases hready : dispatchReadyB s etap kid with
  | true =>
    obtain ⟨k, sz, odb, hk, hb, hsz, ht, hoo⟩ := dispatchReady_elim s etap kid hready
    rw [sc_step s etap kid ovr tr k sz odb hk hb hsz ht hoo]
    exact Or.inr ⟨k, _, hk, rfl, rfl, rfl, rfl⟩
  | false =>
    rw [(sc_notready s etap kid ovr tr hready).2]
    exact Or.inl rfl

theorem alreadySent_cons (r : Korespondencja) (log : List Korespondencja)
    (iid : Option Nat) (etap : Nat)
    (h : alreadySentForInvoiceStage log iid etap = true) :
    alreadySentForInvoiceStage (r :: log) iid etap = true := by
  cases iid with
  | none => simp [alreadySentForInvoiceStage] at h
  | some i =>
    by_cases hi : i = 0
    · simp [alreadySentForInvoiceStage, hi] at h
    · simp only [alreadySentForInvoiceStage, if_neg hi, List.any_cons,
        Bool.or_eq_true] at h ⊢
      exact Or.inr h

theorem alreadySent_cons_blad (r : Korespondencja) (log : List Korespondencja)
    (iid : Option Nat) (etap : Nat) (h : r.status = ("blad")) :
    alreadySentForInvoiceStage (r :: log) iid etap
      = alreadySentForInvoiceStage log iid etap := by
  cases iid with
  | none => rfl
  | some i =>
    by_cases hi : i = 0
    · simp [alreadySentForInvoiceStage, hi]
    · simp [alreadySentForInvoiceStage, hi, h, List.any_cons]

theorem contractorOf_mem (s : DBState) (inv : Invoice) (kk : Kontrahent)
    (h : contractorOf s inv = some kk) : kk ∈ s.kontrahenci := by
  unfold contractorOf at h
  cases hki : inv.kontrahent_id with
  | none => rw [hki] at h; cases h
  | some kid =>
    rw [hki] at h
    exact (findKontrahent_id s kid kk h).2

/-- Every stage-2..5 dispatch is attributed to a contractor of the loop's
input list. -/
theorem runLoop25_attempts_from (etap : Nat) (today : Int) (dz : Int)
    (nextDz : Option Int) (skipDup : Bool) (tr : Nat → Bool × Option String) :
    ∀ (ks : List Kontrahent) (s : DBState) (sent errs n : Nat)
      (att : List (Nat × Nat)) (c iid : Nat),
      (c, iid) ∈ (runLoop25 etap today dz nextDz skipDup tr
        ks s sent errs n att).attempts →
      (c, iid) ∈ att ∨ ∃ k ∈ ks, c = k.id := by
  intro ks
  induction ks with
  | nil =>
    intro s sent errs n att c iid h
    simp only [runLoop25] at h
    exact Or.inl h
  | cons k rest ih =>
    intro s sent errs n att c iid h
    have step : ∀ (s' : DBState) (sent' errs' n' : Nat),
        (c, iid) ∈ (runLoop25 etap today dz nextDz skipDup tr
          rest s' sent' errs' n' att).attempts →
        (c, iid) ∈ att ∨ ∃ k' ∈ k :: rest, c = k'.id := by
      intro s' sent' errs' n' hh
      rcases ih s' sent' errs' n' att c iid hh with h1 | ⟨k', hk', hc⟩
      · exact Or.inl h1
      · exact Or.inr ⟨k', List.mem_cons_of_mem _ hk', hc⟩
    simp only [runLoop25] at h
    cases hov : oldestOverdue (invoicesOf s k.id) with
    | none =>
      rw [hov] at h
      exact step _ _ _ _ h
    | some ov =>
      rw [hov] at h
      simp only at h
      split at h
      · exact step _ _ _ _ h
      · split at h
        · exact step _ _ _ _ h
        · split at h
          · exact step _ _ _ _ h
          · rcases ih _ _ _ _ ((k.id, ov.id) :: att) c iid h with h1 | ⟨k', hk', hc⟩
            · rcases List.mem_cons.mp h1 with heq | hatt
              · obtain ⟨hc, _⟩ := Prod.mk.injEq .. ▸ heq
                exact Or.inr ⟨k, List.mem_cons_self _ _, hc⟩
              · exact Or.inl hatt
            · exact Or.inr ⟨k', List.mem_cons_of_mem _ hk', hc⟩

/-- Every stage-1 dispatch is attributed to a linked, non-BRAK contractor of
the loop's starting state. -/
theorem runLoop1_attempts_from (etap : Nat) (today : Int) (dz : Int)
    (skipDup : Bool) (tr : Nat → Bool × Option String) :
    ∀ (invs : List Invoice) (s : DBState) (sent errs n : Nat)
      (att : List (Nat × Nat)) (c iid : Nat),
      (c, iid) ∈ (runLoop1 etap today dz skipDup tr
        invs s sent errs n att).attempts →
      (c, iid) ∈ att ∨
        ∃ k ∈ s.kontrahenci, c = k.id ∧ k.sciezka_windykacji ≠ some ("BRAK") := by
  intro invs
  induction invs with
  | nil =>
    intro s sent errs n att c iid h
    simp only [runLoop1] at h
    exact Or.inl h
  | cons inv rest ih =>
    intro s sent errs n att c iid h
    have step : ∀ (s' : DBState), s'.kontrahenci = s.kontrahenci →
        ∀ (sent' errs' n' : Nat),
        (c, iid) ∈ (runLoop1 etap today dz skipDup tr
          rest s' sent' errs' n' att).attempts →
        (c, iid) ∈ att ∨
          ∃ k ∈ s.kontrahenci, c = k.id ∧ k.sciezka_windykacji ≠ some ("BRAK") := by
      intro s' hs' sent' errs' n' hh
      rcases ih s' sent' errs' n' att c iid hh with h1 | ⟨k', hk', hc⟩
      · exact Or.inl h1
      · rw [hs'] at hk'
        exact Or.inr ⟨k', hk', hc⟩
    simp only [runLoop1] at h
    split at h
    · exact step (setInvoice s (obliczStatus today inv)) rfl _ _ _ h
    · cases hko : contractorOf (setInvoice s (obliczStatus today inv)) inv with
      | none =>
        rw [hko] at h
        simp only at h
        exact step (setInvoice s (obliczStatus today inv)) rfl _ _ _ h
      | some kk =>
        rw [hko] at h
        simp only at h
        split at h
        · exact step (setInvoice s (obliczStatus today inv)) rfl _ _ _ h
        · split at h
          · exact step (setInvoice s (obliczStatus today inv)) rfl _ _ _ h
          · rename_i hbr hgu
            have hkk : kk ∈ s.kontrahenci :=
              contractorOf_mem (setInvoice s (obliczStatus today inv)) inv kk hko
            rcases ih _ _ _ _ ((kk.id, inv.id) :: att) c iid h with h1 | ⟨k', hk', hc⟩
            · rcases List.mem_cons.mp h1 with heq | hatt
              · obtain ⟨hc, _⟩ := Prod.mk.injEq .. ▸ heq
                exact Or.inr ⟨kk, hkk, hc, hbr⟩
              · exact Or.inl hatt
            · rw [(sc_preserves _ _ _ _ _).1] at hk'
              exact Or.inr ⟨k', hk', hc⟩

/-- C4.  When the dispatch preconditions hold (usable template and recipient
contact, after contractor-found and not-BRAK), `send_correspondence` writes
exactly one log row per invocation — carrying the transport's status
(`wyslana` on success, `blad` with the error text on failure) — and when any
precondition fails it returns failure and writes no row at all. -/
theorem claim_C4 (s : DBState) (etap kid : Nat) (ovr : Option Invoice)
    (tr : Bool × Option String) :
    (dispatchReadyB s etap kid = true →
       ∃ r, (sendCorrespondence s etap kid ovr tr).2.2.korespondencja
           = r :: s.korespondencja ∧
         r.etap = etap ∧
         r.status = (if tr.1 = true then ("wyslana") else ("blad")) ∧
         r.blad_opis = tr.2 ∧
         (sendCorrespondence s etap kid ovr tr).1 = tr.1) ∧
    (dispatchReadyB s etap kid = false →
       (sendCorrespondence s etap kid ovr tr).2.2 = s ∧
       (sendCorrespondence s etap kid ovr tr).1 = false) := by
  constructor
  · intro h
    obtain ⟨k, sz, odb, hk, hb, hsz, ht, hoo⟩ := dispatchReady_elim s etap kid h
    rw [sc_step s etap kid ovr tr k sz odb hk hb hsz ht hoo]
    exact ⟨_, rfl, rfl, rfl, rfl, rfl⟩
  · intro h
    exact ⟨(sc_notready s etap kid ovr tr h).2, (sc_notready s etap kid ovr tr h).1⟩

/-- Instantiation of C4 at a ready state (contractor 1, stage 2, usable
email template, email present) with a succeeding transport. -/
theorem claim_C4_witness :
    dispatchReadyB sReady 2 1 = true ∧
    ∃ r, (sendCorrespondence sReady 2 1 none (true, none)).2.2.korespondencja
        = r :: sReady.korespondencja ∧
      r.etap = 2 ∧
      r.status = (if (true, (none : Option String)).1 = true
        then ("wyslana") else ("blad")) ∧
      r.blad_opis = (true, (none : Option String)).2 ∧
      (sendCorrespondence sReady 2 1 none (true, none)).1
        = (true, (none : Option String)).1 :=
  ⟨by decide, (claim_C4 sReady 2 1 none (true, none)).1 (by decide)⟩

/-- C6.  A BRAK-severity contractor is never dispatched to by any stage's
`run_stage_sending` loop (stage 1 included), and `send_correspondence`
rejects it for every stage and every invoice override, without sending and
without writing any log row. -/
theorem claim_C6 (s : DBState) (kB : Kontrahent)
    (hmem : kB ∈ s.kontrahenci)
    (hbrak : kB.sciezka_windykacji = some ("BRAK")) :
    (∀ (today : Int) (harm : Nat → Harmonogram) (etap : Nat) (skipDup : Bool)
       (tr : Nat → Bool × Option String) (iid : Nat), nodupKontrIds s →
       (kB.id, iid) ∉ (run_stage_sending s today harm etap skipDup tr).attempts) ∧
    (∀ (etap2 kid : Nat) (ovr : Option Invoice) (tr2 : Bool × Option String),
       findKontrahent s kid = some kB →
       (sendCorrespondence s etap2 kid ovr tr2).1 = false ∧
       (sendCorrespondence s etap2 kid ovr tr2).2.2 = s) := by
  constructor
  · intro today harm etap skipDup tr iid hnd h
    simp only [run_stage_sending] at h
    by_cases he : etap = 1
    · rw [if_pos he] at h
      rcases runLoop1_attempts_from _ _ _ _ _ _ _ _ _ _ _ _ _ h with
        h1 | ⟨k, hk, hc, hnb⟩
      · exact absurd h1 (List.not_mem_nil _)
      · have hkkB : k = kB := kontr_id_inj s hnd hk hmem hc.symm
        exact hnb (hkkB ▸ hbrak)
    · rw [if_neg he] at h
      rcases runLoop25_attempts_from _ _ _ _ _ _ _ _ _ _ _ _ _ _ h with
        h1 | ⟨k, hk, hc⟩
      · exact absurd h1 (List.not_mem_nil _)
      · have hk' := List.mem_filter.mp hk
        have hkkB : k = kB := kontr_id_inj s hnd hk'.1 hmem hc.symm
        have hpred := hk'.2
        rw [hkkB, hbrak] at hpred
        simp at hpred
  · intro etap2 kid ovr tr2 hk
    exact sc_brak s etap2 kid ovr tr2 kB hk hbrak

/-- Instantiation of C6 at a concrete BRAK contractor. -/
theorem claim_C6_witness :
    kBrak ∈ sBrak.kontrahenci ∧ kBrak.sciezka_windykacji = some ("BRAK") ∧
    ((kBrak.id, 1) ∉
      (run_stage_sending sBrak 100 DOMYSLNE_HARMONOGRAMY 2 false trNone).attempts) ∧
    ((sendCorrespondence sBrak 3 2 none (true, none)).1 = false ∧
     (sendCorrespondence sBrak 3 2 none (true, none)).2.2 = sBrak) :=
  ⟨by decide, rfl,
   (claim_C6 sBrak kBrak (by decide) rfl).1 100 DOMYSLNE_HARMONOGRAMY 2 false
     trNone 1 (by decide),
   (claim_C6 sBrak kBrak (by decide) rfl).2 3 2 none (true, none) (by decide)⟩

/-- A guarded (`skip_duplicate_check = false`) stage-1 loop never writes a new
log row for an invoice-stage pair that is already successfully sent. -/
theorem runLoop1_nosend (etap : Nat) (today : Int) (dz : Int)
    (tr : Nat → Bool × Option String) (I : Nat) :
    ∀ (invs : List Invoice) (s : DBState) (sent errs n : Nat)
      (att : List (Nat × Nat)),
      alreadySentForInvoiceStage s.korespondencja (some I) etap = true →
      ∀ r ∈ (runLoop1 etap today dz false tr
          invs s sent errs n att).state.korespondencja,
        r ∈ s.korespondencja ∨ ¬(r.invoice_id = some I ∧ r.etap = etap) := by
  intro invs
  induction invs with
  | nil =>
    intro s sent errs n att hsent r hr
    simp only [runLoop1] at hr
    exact Or.inl hr
  | cons inv rest ih =>
    intro s sent errs n att hsent r hr
    simp only [runLoop1] at hr
    split at hr
    · exact ih (setInvoice s (obliczStatus today inv)) _ _ _ _ hsent r hr
    · cases hko : contractorOf (setInvoice s (obliczStatus today inv)) inv with
      | none =>
        rw [hko] at hr
        simp only at hr
        exact ih (setInvoice s (obliczStatus today inv)) _ _ _ _ hsent r hr
      | some kk =>
        rw [hko] at hr
        simp only at hr
        split at hr
        · exact ih (setInvoice s (obliczStatus today inv)) _ _ _ _ hsent r hr
        · split at hr
          · exact ih (setInvoice s (obliczStatus today inv)) _ _ _ _ hsent r hr
          · rename_i hgu
            have hne : inv.id ≠ I := by
              intro hEq
              exact hgu ⟨trivial, by rw [hEq]; exact hsent⟩
            rcases sc_koresp (setInvoice s (obliczStatus today inv)) etap kk.id
                (some (obliczStatus today inv)) (tr n) with
              hunch | ⟨k', r', hk', hcons, hetap', hinv', hstat'⟩
            · have hsent3 : alreadySentForInvoiceStage
                  ((sendCorrespondence (setInvoice s (obliczStatus today inv))
                    etap kk.id (some (obliczStatus today inv)) (tr n)).2.2).korespondencja
                  (some I) etap = true := by
                rw [hunch]; exact hsent
              rcases ih _ _ _ _ _ hsent3 r hr with hin | hni
              · rw [hunch] at hin
                exact Or.inl hin
              · exact Or.inr hni
            · have hinv2 : r'.invoice_id = some inv.id := by
                rw [hinv']
                show some ((obliczStatus today inv).id) = some inv.id
                rw [obliczStatus_id]
              have hsent3 : alreadySentForInvoiceStage
                  ((sendCorrespondence (setInvoice s (obliczStatus today inv))
                    etap kk.id (some (obliczStatus today inv)) (tr n)).2.2).korespondencja
                  (some I) etap = true := by
                rw [hcons]
                exact alreadySent_cons _ _ _ _ hsent
              rcases ih _ _ _ _ _ hsent3 r hr with hin | hni
              · rw [hcons] at hin
                rcases List.mem_cons.mp hin with rfl | hin'
                · refine Or.inr ?_
                  rintro ⟨ha, _⟩
                  rw [hinv2] at ha
                  exact hne (by simpa using ha)
                · exact Or.inl hin'
              · exact Or.inr hni

/-- A guarded stage-2..5 loop never writes a new log row for an
invoice-stage pair that is already successfully sent (with up-to-date
statuses and distinct invoice ids, the dispatch-time re-derivation picks the
same guarded invoice). -/
theorem runLoop25_nosend (etap : Nat) (today : Int) (dz : Int)
    (nextDz : Option Int) (tr : Nat → Bool × Option String) (I : Nat) :
    ∀ (ks : List Kontrahent) (s : DBState) (sent errs n : Nat)
      (att : List (Nat × Nat)),
      freshState today s → nodupInvIds s →
      alreadySentForInvoiceStage s.korespondencja (some I) etap = true →
      ∀ r ∈ (runLoop25 etap today dz nextDz false tr
          ks s sent errs n att).state.korespondencja,
        r ∈ s.korespondencja ∨ ¬(r.invoice_id = some I ∧ r.etap = etap) := by
  intro ks
  induction ks with
  | nil =>
    intro s sent errs n att _ _ hsent r hr
    simp only [runLoop25] at hr
    exact Or.inl hr
  | cons k rest ih =>
    intro s sent errs n att hfresh hnd hsent r hr
    simp only [runLoop25] at hr
    cases hov : oldestOverdue (invoicesOf s k.id) with
    | none =>
      rw [hov] at hr
      exact ih _ _ _ _ _ hfresh hnd hsent r hr
    | some ov =>
      rw [hov] at hr
      simp only at hr
      have hovp := oldestOverdue_some _ _ hov
      have hovS : ov ∈ s.invoices :=
        (List.mem_filter.mp (show ov ∈ s.invoices.filter
          (fun i => decide (i.kontrahent_id = some k.id)) from hovp.1)).1
      have hfr : obliczStatus today ov = ov := hfresh ov hovS
      have hset : setInvoice s ov = s := setInvoice_self s ov hovS hnd
      rw [hfr, hset] at hr
      split at hr
      · exact ih _ _ _ _ _ hfresh hnd hsent r hr
      · split at hr
        · exact ih _ _ _ _ _ hfresh hnd hsent r hr
        · split at hr
          · exact ih _ _ _ _ _ hfresh hnd hsent r hr
          · rename_i hgu
            have hne : ov.id ≠ I := by
              intro hEq
              exact hgu ⟨trivial, by rw [hEq]; exact hsent⟩
            have hpres := sc_preserves s etap k.id none (tr n)
            have hfresh3 : freshState today
                (sendCorrespondence s etap k.id none (tr n)).2.2 := by
              unfold freshState
              rw [hpres.2.1]
              exact hfresh
            have hnd3 : nodupInvIds (sendCorrespondence s etap k.id none (tr n)).2.2 := by
              unfold nodupInvIds
              rw [hpres.2.1]
              exact hnd
            rcases sc_koresp s etap k.id none (tr n) with
              hunch | ⟨k', r', hk', hcons, hetap', hinv', hstat'⟩
            · have hsent3 : alreadySentForInvoiceStage
                  ((sendCorrespondence s etap k.id none (tr n)).2.2).korespondencja
                  (some I) etap = true := by
                rw [hunch]; exact hsent
              rcases ih _ _ _ _ _ hfresh3 hnd3 hsent3 r hr with hin | hni
              · rw [hunch] at hin
                exact Or.inl hin
              · exact Or.inr hni
            · have hk'id := (findKontrahent_id s k.id k' hk').1
              have hdet : (determineContractorStage s k').2 = some ov := by
                have hd1 : determineContractorStage s k' =
                    (if ov.dni_roznica ≤ 7 then (2, some ov)
                     else if ov.dni_roznica ≤ 14 then (3, some ov)
                     else if ov.dni_roznica ≤ 30 then (4, some ov)
                     else (5, some ov)) := by
                  unfold determineContractorStage
                  rw [hk'id, hov]
                rw [hd1]
                split_ifs <;> rfl
              have hinv2 : r'.invoice_id = some ov.id := by
                rw [hinv']
                show ((determineContractorStage s k').2).map (fun i => i.id)
                  = some ov.id
                rw [hdet]
                rfl
              have hsent3 : alreadySentForInvoiceStage
                  ((sendCorrespondence s etap k.id none (tr n)).2.2).korespondencja
                  (some I) etap = true := by
                rw [hcons]
                exact alreadySent_cons _ _ _ _ hsent
              rcases ih _ _ _ _ _ hfresh3 hnd3 hsent3 r hr with hin | hni
              · rw [hcons] at hin
                rcases List.mem_cons.mp hin with rfl | hin'
                · refine Or.inr ?_
                  rintro ⟨ha, _⟩
                  rw [hinv2] at ha
                  exact hne (by simpa using ha)
                · exact Or.inl hin'
              · exact Or.inr hni

/-- C3.  The duplicate guard is true iff a `wyslana` log row exists for that
invoice id and stage; a successful dispatch makes it true; a dispatch whose
transport fails (or that fails earlier) leaves it unchanged — in particular
false if it was false — and a guarded run writes no new row for an
(invoice, stage) pair the guard already suppresses. -/
theorem claim_C3 :
    (∀ (log : List Korespondencja) (iid etap : Nat), 0 < iid →
       (alreadySentForInvoiceStage log (some iid) etap = true ↔
        ∃ r ∈ log, r.invoice_id = some iid ∧ r.etap = etap ∧
          r.status = ("wyslana"))) ∧
    (∀ (s : DBState) (etap kid : Nat) (ovr : Option Invoice)
       (tr : Bool × Option String), tr.1 = true →
       dispatchReadyB s etap kid = true →
       (sendCorrespondence s etap kid ovr tr).1 = true ∧
       ∃ r, (sendCorrespondence s etap kid ovr tr).2.2.korespondencja
           = r :: s.korespondencja ∧
         r.status = ("wyslana") ∧ r.etap = etap ∧
         (∀ iid, 0 < iid → r.invoice_id = some iid →
            alreadySentForInvoiceStage
              ((sendCorrespondence s etap kid ovr tr).2.2).korespondencja
              (some iid) etap = true)) ∧
    (∀ (s : DBState) (etap kid : Nat) (ovr : Option Invoice)
       (tr : Bool × Option String), tr.1 = false → ∀ (iid e2 : Nat),
       alreadySentForInvoiceStage
         ((sendCorrespondence s etap kid ovr tr).2.2).korespondencja
         (some iid) e2
       = alreadySentForInvoiceStage s.korespondencja (some iid) e2) ∧
    (∀ (s : DBState) (today : Int) (harm : Nat → Harmonogram) (etap : Nat)
       (tr : Nat → Bool × Option String) (I : Nat),
       freshState today s → nodupInvIds s →
       alreadySentForInvoiceStage s.korespondencja (some I) etap = true →
       ∀ r ∈ (run_stage_sending s today harm etap false tr).state.korespondencja,
         r ∈ s.korespondencja ∨ ¬(r.invoice_id = some I ∧ r.etap = etap)) := by
  refine ⟨?_, ?_, ?_, ?_⟩
  · intro log iid etap h0
    have hne : ¬ (iid = 0) := by omega
    simp only [alreadySentForInvoiceStage, if_neg hne, List.any_eq_true,
      Bool.and_eq_true, decide_eq_true_eq]
    constructor
    · rintro ⟨r, hr, ⟨h1, h2⟩, h3⟩
      exact ⟨r, hr, h1, h2, h3⟩
    · rintro ⟨r, hr, h1, h2, h3⟩
      exact ⟨r, hr, ⟨h1, h2⟩, h3⟩
  · intro s etap kid ovr tr htr hready
    obtain ⟨k, sz, odb, hk, hb, hsz, ht, hoo⟩ := dispatchReady_elim s etap kid hready
    rw [sc_step s etap kid ovr tr k sz odb hk hb hsz ht hoo]
    refine ⟨htr, _, rfl, ?_, rfl, ?_⟩
    · show (if tr.1 = true then ("wyslana") else ("blad")) = ("wyslana")
      rw [if_pos htr]
    · intro iid hiid hinv
      have hne : ¬ (iid = 0) := by omega
      simp only [alreadySentForInvoiceStage, if_neg hne, List.any_cons,
        Bool.or_eq_true]
      left
      simp only [Bool.and_eq_true, decide_eq_true_eq]
      refine ⟨⟨hinv, trivial⟩, ?_⟩
      show (if tr.1 = true then ("wyslana") else ("blad")) = ("wyslana")
      rw [if_pos htr]
  · intro s etap kid ovr tr htr iid e2
    cases hready : dispatchReadyB s etap kid with
    | false => rw [(sc_notready s etap kid ovr tr hready).2]
    | true =>
      obtain ⟨k, sz, odb, hk, hb, hsz, ht, hoo⟩ :=
        dispatchReady_elim s etap kid hready
      rw [sc_step s etap kid ovr tr k sz odb hk hb hsz ht hoo]
      apply alreadySent_cons_blad
      show (if tr.1 = true then ("wyslana") else ("blad")) = ("blad")
      rw [htr]
      simp
  · intro s today harm etap tr I hfresh hnd hsent r hr
    simp only [run_stage_sending] at hr
    by_cases he : etap = 1
    · rw [if_pos he] at hr
      exact runLoop1_nosend etap today _ tr I _ s 0 0 0 [] hsent r hr
    · rw [if_neg he] at hr
      exact runLoop25_nosend etap today _ _ tr I _ s 0 0 0 []
        hfresh hnd hsent r hr

/-- Instantiation of C3: the guard iff at a one-row log, and the guarded run
at stage 2 writing nothing new for the already-sent (invoice 1, stage 2). -/
theorem claim_C3_witness :
    (alreadySentForInvoiceStage sSent.korespondencja (some 1) 2 = true ↔
     ∃ r ∈ sSent.korespondencja, r.invoice_id = some 1 ∧ r.etap = 2 ∧
       r.status = ("wyslana")) ∧
    (∀ r ∈ (run_stage_sending sSent 110 DOMYSLNE_HARMONOGRAMY 2 false
        trNone).state.korespondencja,
       r ∈ sSent.korespondencja ∨ ¬(r.invoice_id = some 1 ∧ r.etap = 2)) :=
  ⟨claim_C3.1 sSent.korespondencja 1 2 (by decide),
   claim_C3.2.2.2 sSent 110 DOMYSLNE_HARMONOGRAMY 2 trNone 1
     (by decide) (by decide) (by decide)⟩

theorem contractorOf_congr {s s' : DBState} (h : s'.kontrahenci = s.kontrahenci)
    (inv : Invoice) : contractorOf s' inv = contractorOf s inv := by
  cases hik : inv.kontrahent_id with
  | none => simp [contractorOf, hik]
  | some kid => simp [contractorOf, hik, findKontrahent, h]

theorem invoicesOf_congr {s s' : DBState} (h : s'.invoices = s.invoices)
    (kid : Nat) : invoicesOf s' kid = invoicesOf s kid := by
  unfold invoicesOf
  rw [h]

/-- Exact characterization of the stage-1 dispatches when the duplicate
guard is bypassed: one per listed invoice whose due date is exactly the
configured number of days away and whose linked contractor exists and is
not BRAK. -/
theorem runLoop1_attempts (etap : Nat) (today : Int) (dz : Int)
    (tr : Nat → Bool × Option String) :
    ∀ (invs : List Invoice) (s : DBState) (sent errs n : Nat)
      (att : List (Nat × Nat)) (c iid : Nat),
      ((c, iid) ∈ (runLoop1 etap today dz true tr invs s sent errs n att).attempts ↔
       ((c, iid) ∈ att ∨ ∃ inv ∈ invs, iid = inv.id ∧
          inv.termin_platnosci - today = (Int.natAbs dz : Int) ∧
          ∃ k, contractorOf s inv = some k ∧ c = k.id ∧
            ¬ (k.sciezka_windykacji = some ("BRAK")))) := by
  intro invs
  induction invs with
  | nil =>
    intro s sent errs n att c iid
    simp only [runLoop1]
    simp
  | cons inv rest ih =>
    intro s sent errs n att c iid
    by_cases hd : inv.termin_platnosci - today ≠ (Int.natAbs dz : Int)
    · rw [show runLoop1 etap today dz true tr (inv :: rest) s sent errs n att
          = runLoop1 etap today dz true tr rest
              (setInvoice s (obliczStatus today inv)) sent errs n att by
        simp only [runLoop1, if_pos hd]]
      rw [ih (setInvoice s (obliczStatus today inv)) sent errs n att c iid]
      constructor
      · rintro (h1 | ⟨inv', hinv', hrest⟩)
        · exact Or.inl h1
        · exact Or.inr ⟨inv', List.mem_cons_of_mem _ hinv', hrest⟩
      · rintro (h1 | ⟨inv', hinv', hid, hdd, hk⟩)
        · exact Or.inl h1
        · rcases List.mem_cons.mp hinv' with rfl | hinv''
          · exact absurd hdd hd
          · exact Or.inr ⟨inv', hinv'', hid, hdd, hk⟩
    · have hdd : inv.termin_platnosci - today = (Int.natAbs dz : Int) := by
        by_contra hcon
        exact hd hcon
      cases hko : contractorOf (setInvoice s (obliczStatus today inv)) inv with
      | none =>
        have hko' : contractorOf s inv = none := hko
        rw [show runLoop1 etap today dz true tr (inv :: rest) s sent errs n att
            = runLoop1 etap today dz true tr rest
                (setInvoice s (obliczStatus today inv)) sent errs n att by
          simp only [runLoop1, if_neg hd, hko]]
        rw [ih (setInvoice s (obliczStatus today inv)) sent errs n att c iid]
        constructor
        · rintro (h1 | ⟨inv', hinv', hrest⟩)
          · exact Or.inl h1
          · exact Or.inr ⟨inv', List.mem_cons_of_mem _ hinv', hrest⟩
        · rintro (h1 | ⟨inv', hinv', hid, hdd', k, hk, hrest⟩)
          · exact Or.inl h1
          · rcases List.mem_cons.mp hinv' with rfl | hinv''
            · rw [hko'] at hk
              cases hk
            · exact Or.inr ⟨inv', hinv'', hid, hdd', k, hk, hrest⟩
      | some kk =>
        have hko' : contractorOf s inv = some kk := hko
        by_cases hbr : kk.sciezka_windykacji = some ("BRAK")
        · rw [show runLoop1 etap today dz true tr (inv :: rest) s sent errs n att
              = runLoop1 etap today dz true tr rest
                  (setInvoice s (obliczStatus today inv)) sent errs n att by
            simp only [runLoop1, if_neg hd, hko, if_pos hbr]]
          rw [ih (setInvoice s (obliczStatus today inv)) sent errs n att c iid]
          constructor
          · rintro (h1 | ⟨inv', hinv', hrest⟩)
            · exact Or.inl h1
            · exact Or.inr ⟨inv', List.mem_cons_of_mem _ hinv', hrest⟩
          · rintro (h1 | ⟨inv', hinv', hid, hdd', k, hk, hck, hkbr⟩)
            · exact Or.inl h1
            · rcases List.mem_cons.mp hinv' with rfl | hinv''
              · rw [hko'] at hk
                have hkkk : k = kk := by simpa using hk.symm
                exact absurd (hkkk ▸ hbr) hkbr
              · exact Or.inr ⟨inv', hinv'', hid, hdd', k, hk, hck, hkbr⟩
        · rw [show runLoop1 etap today dz true tr (inv :: rest) s sent errs n att
              = runLoop1 etap today dz true tr rest
                  (sendCorrespondence (setInvoice s (obliczStatus today inv))
                    etap kk.id (some (obliczStatus today inv)) (tr n)).2.2
                  (if (sendCorrespondence (setInvoice s (obliczStatus today inv))
                      etap kk.id (some (obliczStatus today inv)) (tr n)).1 = true
                   then sent + 1 else sent)
                  (if (sendCorrespondence (setInvoice s (obliczStatus today inv))
                      etap kk.id (some (obliczStatus today inv)) (tr n)).1 = true
                   then errs else errs + 1)
                  (n + 1) ((kk.id, inv.id) :: att) by
            simp only [runLoop1, if_neg hd, hko, if_neg hbr]
            rw [if_neg (by rintro ⟨h1, _⟩; exact absurd h1 (by decide))]]
          have hpres := sc_preserves (setInvoice s (obliczStatus today inv)) etap
            kk.id (some (obliczStatus today inv)) (tr n)
          have hre : ∀ inv' : Invoice,
              contractorOf ((sendCorrespondence (setInvoice s (obliczStatus today inv))
                etap kk.id (some (obliczStatus today inv)) (tr n)).2.2) inv'
              = contractorOf s inv' := fun inv' => contractorOf_congr hpres.1 inv'
          rw [ih _ _ _ _ ((kk.id, inv.id) :: att) c iid]
          simp only [hre]
          constructor
          · rintro (h1 | ⟨inv', hinv', hrest⟩)
            · rcases List.mem_cons.mp h1 with heq | hatt
              · obtain ⟨hc, hiid⟩ := Prod.mk.injEq .. ▸ heq
                exact Or.inr ⟨inv, List.mem_cons_self _ _, hiid, hdd,
                  kk, hko', hc, hbr⟩
              · exact Or.inl hatt
            · exact Or.inr ⟨inv', List.mem_cons_of_mem _ hinv', hrest⟩
          · rintro (h1 | ⟨inv', hinv', hid, hdd', k, hk, hck, hkbr⟩)
            · exact Or.inl (List.mem_cons_of_mem _ h1)
            · rcases List.mem_cons.mp hinv' with rfl | hinv''
              · rw [hko'] at hk
                have hkkk : k = kk := by simpa using hk.symm
                subst hkkk
                exact Or.inl (by
                  rw [hck, hid]
                  exact List.mem_cons_self _ _)
              · exact Or.inr ⟨inv', hinv'', hid, hdd', k, hk, hck, hkbr⟩

/-- Exact characterization of the stage-2..5 dispatches when the duplicate
guard is bypassed and statuses are up to date: one per non-BRAK-filtered
contractor whose oldest overdue invoice has its day-difference inside the
`[offset, next offset)` window. -/
theorem runLoop25_attempts (etap : Nat) (today : Int) (dz : Int)
    (nextDz : Option Int) (tr : Nat → Bool × Option String) :
    ∀ (ks : List Kontrahent) (s : DBState) (sent errs n : Nat)
      (att : List (Nat × Nat)) (c iid : Nat),
      freshState today s → nodupInvIds s →
      ((c, iid) ∈ (runLoop25 etap today dz nextDz true tr
          ks s sent errs n att).attempts ↔
       ((c, iid) ∈ att ∨ ∃ k ∈ ks, c = k.id ∧
          ∃ ov, oldestOverdue (invoicesOf s k.id) = some ov ∧ iid = ov.id ∧
            dz ≤ ov.dni_roznica ∧ nextGE nextDz ov.dni_roznica = false)) := by
  intro ks
  induction ks with
  | nil =>
    intro s sent errs n att c iid _ _
    simp only [runLoop25]
    simp
  | cons k rest ih =>
    intro s sent errs n att c iid hfresh hnd
    cases hov : oldestOverdue (invoicesOf s k.id) with
    | none =>
      rw [show runLoop25 etap today dz nextDz true tr (k :: rest) s sent errs n att
          = runLoop25 etap today dz nextDz true tr rest s sent errs n att by
        simp only [runLoop25, hov]]
      rw [ih s sent errs n att c iid hfresh hnd]
      constructor
      · rintro (h1 | ⟨k', hk', hrest⟩)
        · exact Or.inl h1
        · exact Or.inr ⟨k', List.mem_cons_of_mem _ hk', hrest⟩
      · rintro (h1 | ⟨k', hk', hc, ov, hov', hrest⟩)
        · exact Or.inl h1
        · rcases List.mem_cons.mp hk' with rfl | hk''
          · rw [hov] at hov'
            cases hov'
          · exact Or.inr ⟨k', hk'', hc, ov, hov', hrest⟩
    | some ov =>
      have hovp := oldestOverdue_some _ _ hov
      have hovS : ov ∈ s.invoices :=
        (List.mem_filter.mp (show ov ∈ s.invoices.filter
          (fun i => decide (i.kontrahent_id = some k.id)) from hovp.1)).1
      have hfr : obliczStatus today ov = ov := hfresh ov hovS
      have hset : setInvoice s ov = s := setInvoice_self s ov hovS hnd
      by_cases hd1 : ov.dni_roznica < dz
      · rw [show runLoop25 etap today dz nextDz true tr (k :: rest) s sent errs n att
            = runLoop25 etap today dz nextDz true tr rest s sent errs n att by
          simp only [runLoop25, hov, hfr, hset, if_pos hd1]]
        rw [ih s sent errs n att c iid hfresh hnd]
        constructor
        · rintro (h1 | ⟨k', hk', hrest⟩)
          · exact Or.inl h1
          · exact Or.inr ⟨k', List.mem_cons_of_mem _ hk', hrest⟩
        · rintro (h1 | ⟨k', hk', hc, ov', hov', hid, hwin, hnx⟩)
          · exact Or.inl h1
          · rcases List.mem_cons.mp hk' with rfl | hk''
            · rw [hov] at hov'
              have hove : ov' = ov := by simpa using hov'.symm
              subst hove
              omega
            · exact Or.inr ⟨k', hk'', hc, ov', hov', hid, hwin, hnx⟩
      · by_cases hd2 : nextGE nextDz ov.dni_roznica = true
        · rw [show runLoop25 etap today dz nextDz true tr (k :: rest) s sent errs n att
              = runLoop25 etap today dz nextDz true tr rest s sent errs n att by
            simp only [runLoop25, hov, hfr, hset, if_neg hd1, if_pos hd2]]
          rw [ih s sent errs n att c iid hfresh hnd]
          constructor
          · rintro (h1 | ⟨k', hk', hrest⟩)
            · exact Or.inl h1
            · exact Or.inr ⟨k', List.mem_cons_of_mem _ hk', hrest⟩
          · rintro (h1 | ⟨k', hk', hc, ov', hov', hid, hwin, hnx⟩)
            · exact Or.inl h1
            · rcases List.mem_cons.mp hk' with rfl | hk''
              · rw [hov] at hov'
                have hove : ov' = ov := by simpa using hov'.symm
                subst hove
                rw [hd2] at hnx
                cases hnx
              · exact Or.inr ⟨k', hk'', hc, ov', hov', hid, hwin, hnx⟩
        · rw [show runLoop25 etap today dz nextDz true tr (k :: rest) s sent errs n att
              = runLoop25 etap today dz nextDz true tr rest
                  (sendCorrespondence s etap k.id none (tr n)).2.2
                  (if (sendCorrespondence s etap k.id none (tr n)).1 = true
                   then sent + 1 else sent)
                  (if (sendCorrespondence s etap k.id none (tr n)).1 = true
                   then errs else errs + 1)
                  (n + 1) ((k.id, ov.id) :: att) by
            simp only [runLoop25, hov, hfr, hset, if_neg hd1, if_neg hd2]
            rw [if_neg (by rintro ⟨h1, _⟩; exact absurd h1 (by decide))]]
          have hpres := sc_preserves s etap k.id none (tr n)
          have hfresh3 : freshState today
              (sendCorrespondence s etap k.id none (tr n)).2.2 := by
            unfold freshState
            rw [hpres.2.1]
            exact hfresh
          have hnd3 : nodupInvIds (sendCorrespondence s etap k.id none (tr n)).2.2 := by
            unfold nodupInvIds
            rw [hpres.2.1]
            exact hnd
          have hre : ∀ kid : Nat,
              invoicesOf ((sendCorrespondence s etap k.id none (tr n)).2.2) kid
              = invoicesOf s kid := fun kid => invoicesOf_congr hpres.2.1 kid
          rw [ih _ _ _ _ ((k.id, ov.id) :: att) c iid hfresh3 hnd3]
          simp only [hre]
          have hwin : dz ≤ ov.dni_roznica := by omega
          have hnx : nextGE nextDz ov.dni_roznica = false := by
            cases hx : nextGE nextDz ov.dni_roznica
            · rfl
            · exact absurd hx hd2
          constructor
          · rintro (h1 | ⟨k', hk', hrest⟩)
            · rcases List.mem_cons.mp h1 with heq | hatt
              · obtain ⟨hc, hiid⟩ := Prod.mk.injEq .. ▸ heq
                exact Or.inr ⟨k, List.mem_cons_self _ _, hc, ov, hov, hiid,
                  hwin, hnx⟩
              · exact Or.inl hatt
            · exact Or.inr ⟨k', List.mem_cons_of_mem _ hk', hrest⟩
          · rintro (h1 | ⟨k', hk', hc, ov', hov', hid, hwin', hnx'⟩)
            · exact Or.inl (List.mem_cons_of_mem _ h1)
            · rcases List.mem_cons.mp hk' with rfl | hk''
              · rw [hov] at hov'
                have hove : ov' = ov := by simpa using hov'.symm
                subst hove
                exact Or.inl (by
                  rw [hc, hid]
                  exact List.mem_cons_self _ _)
              · exact Or.inr ⟨k', hk'', hc, ov', hov', hid, hwin', hnx'⟩

/-- An up-to-date overdue invoice's stored day-difference is
`today - due date`, and it is positive. -/
theorem fresh_overdue_dni (today : Int) (ov : Invoice)
    (hfr : obliczStatus today ov = ov)
    (hst : ov.status = ("przeterminowana")) :
    ov.dni_roznica = today - ov.termin_platnosci ∧
    0 < today - ov.termin_platnosci := by
  cases hdp : ov.data_platnosci with
  | some dp =>
    exfalso
    unfold obliczStatus at hfr
    rw [hdp] at hfr
    have hstat := congrArg Invoice.status hfr
    simp at hstat
    rw [hst] at hstat
    exact absurd hstat (by decide)
  | none =>
    unfold obliczStatus at hfr
    rw [hdp] at hfr
    have hdni := congrArg Invoice.dni_roznica hfr
    have hstat := congrArg Invoice.status hfr
    simp at hdni hstat
    rw [hst] at hstat
    by_cases hd0 : today ≤ ov.termin_platnosci
    · rw [if_pos hd0] at hstat
      exact absurd hstat (by decide)
    · exact ⟨hdni.symm, by omega⟩

theorem oldestOverdue_isSome (l : List Invoice) (inv : Invoice)
    (h : inv ∈ l) (hst : inv.status = ("przeterminowana")) :
    ∃ ov, oldestOverdue l = some ov := by
  cases hf : oldestOverdue l with
  | none => exact absurd hst (oldestOverdue_none l hf inv h)
  | some ov => exact ⟨ov, rfl⟩

/-- C2.  A bypass-guard stage-1 run dispatches exactly for the unpaid
invoices whose linked contractor exists with severity other than BRAK and
whose due date minus today equals the absolute value of the stage-1 offset;
with the default offset −3 this is the single day `today = due − 3`. -/
theorem claim_C2 (s : DBState) (today : Int) (harm : Nat → Harmonogram)
    (tr : Nat → Bool × Option String) (hnd : nodupInvIds s) :
    (∀ inv ∈ s.invoices,
       ((∃ c, (c, inv.id) ∈ (run_stage_sending s today harm 1 true tr).attempts) ↔
        (inv.status ≠ ("oplacona") ∧
         inv.termin_platnosci - today = ((((harm 1).dzien_aktywacji).natAbs : Int)) ∧
         ∃ kid k, inv.kontrahent_id = some kid ∧ findKontrahent s kid = some k ∧
           k.sciezka_windykacji ≠ some ("BRAK")))) ∧
    ((harm 1).dzien_aktywacji = -3 →
      ∀ inv ∈ s.invoices,
        ((∃ c, (c, inv.id) ∈ (run_stage_sending s today harm 1 true tr).attempts) ↔
         (inv.status ≠ ("oplacona") ∧ today = inv.termin_platnosci - 3 ∧
          ∃ kid k, inv.kontrahent_id = some kid ∧ findKontrahent s kid = some k ∧
            k.sciezka_windykacji ≠ some ("BRAK")))) := by
  have hmain : ∀ inv ∈ s.invoices,
      ((∃ c, (c, inv.id) ∈ (run_stage_sending s today harm 1 true tr).attempts) ↔
       (inv.status ≠ ("oplacona") ∧
        inv.termin_platnosci - today = ((((harm 1).dzien_aktywacji).natAbs : Int)) ∧
        ∃ kid k, inv.kontrahent_id = some kid ∧ findKontrahent s kid = some k ∧
          k.sciezka_windykacji ≠ some ("BRAK"))) := by
    intro inv hinv
    rw [show run_stage_sending s today harm 1 true tr
        = runLoop1 1 today (harm 1).dzien_aktywacji true tr
            (s.invoices.filter (fun i =>
              decide (i.status ≠ ("oplacona")) && i.kontrahent_id.isSome))
            s 0 0 0 [] by
      simp only [run_stage_sending]
      exact if_pos trivial]
    constructor
    · rintro ⟨c, hc⟩
      rw [runLoop1_attempts 1 today (harm 1).dzien_aktywacji tr _ s 0 0 0 []
        c inv.id] at hc
      rcases hc with h1 | ⟨inv', hinv', hid, hdd, k, hk, hck, hkbr⟩
      · exact absurd h1 (List.not_mem_nil _)
      · have hinv'S : inv' ∈ s.invoices := (List.mem_filter.mp hinv').1
        have hEq : inv = inv' := invoice_id_inj s hnd hinv hinv'S hid
        subst hEq
        have hpred := (List.mem_filter.mp hinv').2
        simp only [Bool.and_eq_true, decide_eq_true_eq] at hpred
        refine ⟨hpred.1, hdd, ?_⟩
        cases hik : inv.kontrahent_id with
        | none =>
          exfalso
          unfold contractorOf at hk
          rw [hik] at hk
          cases hk
        | some kid =>
          refine ⟨kid, k, rfl, ?_, hkbr⟩
          unfold contractorOf at hk
          rw [hik] at hk
          exact hk
    · rintro ⟨hst, hdd, kid, k, hik, hfk, hbr⟩
      refine ⟨k.id, ?_⟩
      rw [runLoop1_attempts 1 today (harm 1).dzien_aktywacji tr _ s 0 0 0 []
        k.id inv.id]
      right
      refine ⟨inv, ?_, rfl, hdd, k, ?_, rfl, hbr⟩
      · refine List.mem_filter.mpr ⟨hinv, ?_⟩
        simp [hst, hik]
      · unfold contractorOf
        rw [hik]
        exact hfk
  refine ⟨hmain, ?_⟩
  intro hdz inv hinv
  refine (hmain inv hinv).trans ?_
  rw [hdz]
  constructor
  · rintro ⟨h1, h2, h3⟩
    refine ⟨h1, ?_, h3⟩
    simp at h2
    omega
  · rintro ⟨h1, h2, h3⟩
    refine ⟨h1, ?_, h3⟩
    simp
    omega

/-- Instantiation of C2: invoice due at day 103 with the default −3 offset
is dispatched exactly by the run at `today = 100`. -/
theorem claim_C2_witness :
    nodupInvIds sPre ∧
    ((∃ c, (c, invPre.id) ∈ (run_stage_sending sPre 100
        DOMYSLNE_HARMONOGRAMY 1 true trNone).attempts) ↔
     (invPre.status ≠ ("oplacona") ∧ (100 : Int) = invPre.termin_platnosci - 3 ∧
      ∃ kid k, invPre.kontrahent_id = some kid ∧
        findKontrahent sPre kid = some k ∧
        k.sciezka_windykacji ≠ some ("BRAK"))) :=
  ⟨by decide,
   (claim_C2 sPre 100 DOMYSLNE_HARMONOGRAMY trNone (by decide)).2 rfl invPre
     (by decide)⟩

/-- C1.  A bypass-guard run of stages 2..5 dispatches exactly for the
non-BRAK contractors whose oldest overdue invoice (minimal due date among
status `przeterminowana`) has day-difference `d = today − due` with
`offset(etap) ≤ d` and (`etap = 5` or `d < offset(etap+1)`); a contractor
with no overdue invoice is dispatched by no stage 2..5; and with the default
offsets a contractor whose oldest overdue invoice is 10 days past due is
dispatched by stage 3 and only stage 3. -/
theorem claim_C1 (s : DBState) (today : Int) (tr : Nat → Bool × Option String)
    (hfresh : freshState today s) (hndI : nodupInvIds s)
    (hndK : nodupKontrIds s)
    (hsc : ∀ k ∈ s.kontrahenci, k.sciezka_windykacji ≠ none) :
    (∀ (harm : Nat → Harmonogram) (etap : Nat),
       etap ∈ ([2, 3, 4, 5] : List Nat) → ∀ kid,
       ((∃ iid, (kid, iid) ∈
           (run_stage_sending s today harm etap true tr).attempts) ↔
        ∃ k ∈ s.kontrahenci, k.id = kid ∧
          k.sciezka_windykacji ≠ some ("BRAK") ∧
          ∃ ov ∈ invoicesOf s k.id, ov.status = ("przeterminowana") ∧
            (∀ j ∈ invoicesOf s k.id, j.status = ("przeterminowana") →
              ov.termin_platnosci ≤ j.termin_platnosci) ∧
            (harm etap).dzien_aktywacji ≤ today - ov.termin_platnosci ∧
            (etap = 5 ∨
              today - ov.termin_platnosci < (harm (etap + 1)).dzien_aktywacji))) ∧
    (∀ (harm : Nat → Harmonogram) (etap : Nat),
       etap ∈ ([2, 3, 4, 5] : List Nat) →
       ∀ k ∈ s.kontrahenci,
         (∀ j ∈ invoicesOf s k.id, j.status ≠ ("przeterminowana")) →
         ∀ iid, (k.id, iid) ∉
           (run_stage_sending s today harm etap true tr).attempts) ∧
    (∀ k ∈ s.kontrahenci, k.sciezka_windykacji ≠ some ("BRAK") →
       ∀ ov, oldestOverdue (invoicesOf s k.id) = some ov →
         today - ov.termin_platnosci = 10 →
         ∀ etap ∈ ([2, 3, 4, 5] : List Nat),
           ((∃ iid, (k.id, iid) ∈ (run_stage_sending s today
               DOMYSLNE_HARMONOGRAMY etap true tr).attempts) ↔ etap = 3)) := by
  have hmain : ∀ (harm : Nat → Harmonogram) (etap : Nat),
      etap ∈ ([2, 3, 4, 5] : List Nat) → ∀ kid,
      ((∃ iid, (kid, iid) ∈
          (run_stage_sending s today harm etap true tr).attempts) ↔
       ∃ k ∈ s.kontrahenci, k.id = kid ∧
         k.sciezka_windykacji ≠ some ("BRAK") ∧
         ∃ ov ∈ invoicesOf s k.id, ov.status = ("przeterminowana") ∧
           (∀ j ∈ invoicesOf s k.id, j.status = ("przeterminowana") →
             ov.termin_platnosci ≤ j.termin_platnosci) ∧
           (harm etap).dzien_aktywacji ≤ today - ov.termin_platnosci ∧
           (etap = 5 ∨
             today - ov.termin_platnosci < (harm (etap + 1)).dzien_aktywacji)) := by
    intro harm etap hetap kid
    have hetap' : etap = 2 ∨ etap = 3 ∨ etap = 4 ∨ etap = 5 := by
      simpa using hetap
    have he1 : ¬ (etap = 1) := by omega
    have hnx_iff : ∀ d : Int,
        nextGE (nextStageOffset harm etap) d = false ↔
        (etap = 5 ∨ d < (harm (etap + 1)).dzien_aktywacji) := by
      intro d
      rcases hetap' with rfl | rfl | rfl | rfl
      · rw [show nextStageOffset harm 2 = some (harm 3).dzien_aktywacji from rfl]
        simp [nextGE, Int.not_le]
      · rw [show nextStageOffset harm 3 = some (harm 4).dzien_aktywacji from rfl]
        simp [nextGE, Int.not_le]
      · rw [show nextStageOffset harm 4 = some (harm 5).dzien_aktywacji from rfl]
        simp [nextGE, Int.not_le]
      · rw [show nextStageOffset harm 5 = (none : Option Int) from rfl]
        simp [nextGE]
    rw [show run_stage_sending s today harm etap true tr
        = runLoop25 etap today (harm etap).dzien_aktywacji
            (nextStageOffset harm etap) true tr
            (s.kontrahenci.filter (fun k =>
              match k.sciezka_windykacji with
              | some w => decide (w ≠ ("BRAK"))
              | none => false)) s 0 0 0 [] by
      simp only [run_stage_sending]
      exact if_neg he1]
    constructor
    · rintro ⟨iid, hmem⟩
      rw [runLoop25_attempts etap today (harm etap).dzien_aktywacji
        (nextStageOffset harm etap) tr _ s 0 0 0 [] kid iid hfresh hndI] at hmem
      rcases hmem with h1 | ⟨k, hkF, hc, ov, hov, hiid, hwin, hnx⟩
      · exact absurd h1 (List.not_mem_nil _)
      · have hkS := (List.mem_filter.mp hkF).1
        have hkpred := (List.mem_filter.mp hkF).2
        have hkbr : k.sciezka_windykacji ≠ some ("BRAK") := by
          cases hsw : k.sciezka_windykacji with
          | none =>
            rw [hsw] at hkpred
            simp at hkpred
          | some w =>
            rw [hsw] at hkpred
            simp only [decide_eq_true_eq] at hkpred
            intro hcon
            exact hkpred (by simpa using hcon)

        have hovp := oldestOverdue_some _ _ hov
        have hovS : ov ∈ s.invoices :=
          (List.mem_filter.mp (show ov ∈ s.invoices.filter
            (fun i => decide (i.kontrahent_id = some k.id)) from hovp.1)).1
        have hdni := fresh_overdue_dni today ov (hfresh ov hovS) hovp.2.1
        rw [hdni.1] at hwin hnx
        exact ⟨k, hkS, hc.symm, hkbr, ov, hovp.1, hovp.2.1, hovp.2.2, hwin,
          (hnx_iff _).mp hnx⟩
    · rintro ⟨k, hkS, hkid, hkbr, ov, hovIn, hovSt, hovMin, hwin, hnx⟩
      have hkF : k ∈ s.kontrahenci.filter (fun k =>
          match k.sciezka_windykacji with
          | some w => decide (w ≠ ("BRAK"))
          | none => false) := by
        refine List.mem_filter.mpr ⟨hkS, ?_⟩
        cases hsw : k.sciezka_windykacji with
        | none => exact absurd hsw (hsc k hkS)
        | some w =>
          simp only [decide_eq_true_eq]
          intro hcon
          exact hkbr (by rw [hsw, hcon])
      obtain ⟨ov2, hov2⟩ := oldestOverdue_isSome (invoicesOf s k.id) ov hovIn hovSt
      have hovp2 := oldestOverdue_some _ _ hov2
      have hterm : ov2.termin_platnosci = ov.termin_platnosci :=
        le_antisymm (hovp2.2.2 ov hovIn hovSt) (hovMin ov2 hovp2.1 hovp2.2.1)
      have hovS2 : ov2 ∈ s.invoices :=
        (List.mem_filter.mp (show ov2 ∈ s.invoices.filter
          (fun i => decide (i.kontrahent_id = some k.id)) from hovp2.1)).1
      have hdni2 := fresh_overdue_dni today ov2 (hfresh ov2 hovS2) hovp2.2.1
      refine ⟨ov2.id, ?_⟩
      rw [runLoop25_attempts etap today (harm etap).dzien_aktywacji
        (nextStageOffset harm etap) tr _ s 0 0 0 [] kid ov2.id hfresh hndI]
      right
      refine ⟨k, hkF, hkid.symm, ov2, hov2, rfl, ?_, ?_⟩
      · rw [hdni2.1, hterm]
        exact hwin
      · rw [hdni2.1, hterm]
        exact (hnx_iff _).mpr hnx
  refine ⟨hmain, ?_, ?_⟩
  · intro harm etap hetap k hkS hno iid hmem
    have hiff := (hmain harm etap hetap k.id).mp ⟨iid, hmem⟩
    obtain ⟨k', _, hk'id, _, ov, hovIn, hovSt, _⟩ := hiff
    rw [show invoicesOf s k'.id = invoicesOf s k.id from by rw [hk'id]] at hovIn
    exact hno ov hovIn hovSt
  · intro k hkS hkbr ov hov hd10 etap hetap
    have hetap' : etap = 2 ∨ etap = 3 ∨ etap = 4 ∨ etap = 5 := by
      simpa using hetap
    rw [hmain DOMYSLNE_HARMONOGRAMY etap hetap k.id]
    have hovp := oldestOverdue_some _ _ hov
    constructor
    · rintro ⟨k', hk'S, hk'id, _, ov', hovIn', hovSt', hovMin', hwin', hnx'⟩
      have hkk : k' = k := kontr_id_inj s hndK hk'S hkS hk'id
      subst hkk
      have ht : ov'.termin_platnosci = ov.termin_platnosci :=
        le_antisymm (hovMin' ov hovp.1 hovp.2.1) (hovp.2.2 ov' hovIn' hovSt')
      rw [ht, hd10] at hwin' hnx'
      rcases hetap' with rfl | rfl | rfl | rfl
      · exfalso
        rcases hnx' with h5 | hlt
        · exact absurd h5 (by decide)
        · rw [show (DOMYSLNE_HARMONOGRAMY (2 + 1)).dzien_aktywacji = 7 from rfl] at hlt
          omega
      · rfl
      · exfalso
        rw [show (DOMYSLNE_HARMONOGRAMY 4).dzien_aktywacji = 14 from rfl] at hwin'
        omega
      · exfalso
        rw [show (DOMYSLNE_HARMONOGRAMY 5).dzien_aktywacji = 30 from rfl] at hwin'
        omega
    · intro he3
      subst he3
      refine ⟨k, hkS, rfl, hkbr, ov, hovp.1, hovp.2.1, hovp.2.2, ?_, ?_⟩
      · rw [hd10, show (DOMYSLNE_HARMONOGRAMY 3).dzien_aktywacji = 7 from rfl]
        omega
      · right
        rw [hd10, show (DOMYSLNE_HARMONOGRAMY (3 + 1)).dzien_aktywacji = 14 from rfl]
        omega

/-- Instantiation of C1: with the default offsets, the contractor whose
oldest overdue invoice is 10 days past due is dispatched by stage 3. -/
theorem claim_C1_witness :
    freshState 110 sTen ∧
    ((∃ iid, (kSta.id, iid) ∈ (run_stage_sending sTen 110
        DOMYSLNE_HARMONOGRAMY 3 true trNone).attempts) ↔ (3 : Nat) = 3) :=
  ⟨by decide,
   (claim_C1 sTen 110 trNone (by decide) (by decide) (by decide)
     (by decide)).2.2 kSta (by decide) (by decide) invTen (by decide)
     (by decide) 3 (by decide)⟩

/-- C5 (amended).  `determine_contractor_stage` re-derives the same invoice
as `run_stage_sending` — the oldest overdue one — and, off the boundary
day-differences 7, 14 and 30, its stage is exactly the §4.1 default-offset
window stage; at those boundaries the two disagree (see the accompanying
counterexample: the code uses `≤`-closed upper bounds while the eligibility
windows are closed below and open above). -/
theorem claim_C5 (s : DBState) (today : Int) (k : Kontrahent)
    (hfresh : freshState today s) :
    ∀ ov, oldestOverdue (invoicesOf s k.id) = some ov →
      (determineContractorStage s k).2 = some ov ∧
      ((today - ov.termin_platnosci ≠ 7 ∧ today - ov.termin_platnosci ≠ 14 ∧
        today - ov.termin_platnosci ≠ 30) →
       ∀ etap ∈ ([2, 3, 4, 5] : List Nat),
         ((determineContractorStage s k).1 = etap ↔
          ((DOMYSLNE_HARMONOGRAMY etap).dzien_aktywacji
             ≤ today - ov.termin_platnosci ∧
           (etap = 5 ∨ today - ov.termin_platnosci <
             (DOMYSLNE_HARMONOGRAMY (etap + 1)).dzien_aktywacji)))) := by
  intro ov hov
  have hovp := oldestOverdue_some _ _ hov
  have hovS : ov ∈ s.invoices :=
    (List.mem_filter.mp (show ov ∈ s.invoices.filter
      (fun i => decide (i.kontrahent_id = some k.id)) from hovp.1)).1
  have hdni := fresh_overdue_dni today ov (hfresh ov hovS) hovp.2.1
  have hdet : determineContractorStage s k
      = (if ov.dni_roznica ≤ 7 then (2, some ov)
         else if ov.dni_roznica ≤ 14 then (3, some ov)
         else if ov.dni_roznica ≤ 30 then (4, some ov) else (5, some ov)) := by
    unfold determineContractorStage
    rw [hov]
  constructor
  · rw [hdet]
    split_ifs <;> rfl
  · rintro ⟨h7, h14, h30⟩ etap hetap
    have hetap' : etap = 2 ∨ etap = 3 ∨ etap = 4 ∨ etap = 5 := by
      simpa using hetap
    have hfst : (determineContractorStage s k).1
        = (if today - ov.termin_platnosci ≤ 7 then 2
           else if today - ov.termin_platnosci ≤ 14 then 3
           else if today - ov.termin_platnosci ≤ 30 then 4 else 5) := by
      rw [hdet, hdni.1]
      split_ifs <;> rfl
    rw [hfst]
    have hd0 := hdni.2
    rcases hetap' with rfl | rfl | rfl | rfl
    · rw [show (DOMYSLNE_HARMONOGRAMY 2).dzien_aktywacji = 1 from rfl,
        show (DOMYSLNE_HARMONOGRAMY (2 + 1)).dzien_aktywacji = 7 from rfl]
      split_ifs <;> omega
    · rw [show (DOMYSLNE_HARMONOGRAMY 3).dzien_aktywacji = 7 from rfl,
        show (DOMYSLNE_HARMONOGRAMY (3 + 1)).dzien_aktywacji = 14 from rfl]
      split_ifs <;> omega
    · rw [show (DOMYSLNE_HARMONOGRAMY 4).dzien_aktywacji = 14 from rfl,
        show (DOMYSLNE_HARMONOGRAMY (4 + 1)).dzien_aktywacji = 30 from rfl]
      split_ifs <;> omega
    · rw [show (DOMYSLNE_HARMONOGRAMY 5).dzien_aktywacji = 30 from rfl,
        show (DOMYSLNE_HARMONOGRAMY (5 + 1)).dzien_aktywacji = 0 from rfl]
      split_ifs <;> omega

/-- Refutation of C5 as stated: at day-difference exactly 7 (the default
stage-3 lower bound), `determine_contractor_stage` returns stage 2, but
stage 2's run dispatches nothing for the contractor while stage 3's run
dispatches — so the re-derived stage is not the unique eligibility-window
stage. -/
theorem claim_C5_counterexample :
    (determineContractorStage sSeven kSta).1 = 2 ∧
    ¬((DOMYSLNE_HARMONOGRAMY 2).dzien_aktywacji
        ≤ 107 - invSeven.termin_platnosci ∧
      ((2 : Nat) = 5 ∨ 107 - invSeven.termin_platnosci <
        (DOMYSLNE_HARMONOGRAMY 3).dzien_aktywacji)) ∧
    (run_stage_sending sSeven 107 DOMYSLNE_HARMONOGRAMY 2 true trNone).attempts
      = [] ∧
    (run_stage_sending sSeven 107 DOMYSLNE_HARMONOGRAMY 3 true trNone).attempts
      = [(1, 1)] := by
  decide

/-- Instantiation of the amended C5 at day-difference 10: the dispatch-time
re-derivation returns the oldest overdue invoice. -/
theorem claim_C5_witness :
    freshState 110 sTen ∧
    (determineContractorStage sTen kSta).2 = some invTen :=
  ⟨by decide,
   (claim_C5 sTen 110 kSta (by decide) invTen (by decide)).1⟩
